import Mathlib

/-!
wa-worker: WhatsApp → Cloudflare Worker → n8n relay.

A shallow embedding of the single request handler `fetch(request, env)` of
`src/workers.js`, and theorems about it.

Modelling conventions.

* A JavaScript value is an `Option Json`: `none` is `undefined`, `some j` is a
  value that `JSON.parse` can produce (`Json.null` is `null`).
* `JSON.parse` (behind `request.json()`) and `JSON.stringify` belong to the
  JavaScript runtime, not to the repository: they are the two fields of
  `Runtime` and every theorem holds for every runtime. Both can throw.
* The network is a function from the outbound call to its outcome: the promise
  of the global `fetch` either resolves with an HTTP status or rejects (an
  unreachable host, an invalid or missing URL).
* `fetch` returns the completion of the handler (a response, or a thrown
  error) together with the list of outbound calls it issued, oldest first. A
  call is issued when the global `fetch` is invoked; when an argument of that
  invocation throws, no call is issued.
* `log(...)` writes a time-stamped line to the console and never changes the
  control flow. `fetch` leaves it out; `fetchInWorld` is the same body with
  its `log` lines, run in a `World` that holds the clock, the console, the
  network and the calls made so far.
-/

namespace WaWorker

/-! ## Data model -/

/-- A JavaScript Number as `JSON.parse` can return it: a finite double, given
by its exact value `± mantissa * 10 ^ exponent`, or an infinity (what a
literal beyond the range of a double, such as `1e999`, reads as). `NaN` has no
JSON literal. A value has several representations (`10 * 10 ^ 0` and
`1 * 10 ^ 1`, a zero of either sign); a parser returns one of them for each
value. -/
inductive JSNumber where
  | finite (negative : Bool) (mantissa : Nat) (exponent : Int)
  | infinite (negative : Bool)
  deriving DecidableEq

/-- A parsed JSON value. The members of an object are listed in insertion
order; `JSON.parse` leaves one member per key. -/
inductive Json where
  | null
  | bool (b : Bool)
  | num (n : JSNumber)
  | str (s : String)
  | arr (items : List Json)
  | obj (members : List (String × Json))

/-- A JavaScript value: `none` is `undefined`. -/
abbrev JSValue := Option Json

/-- The only error the handler body can raise by itself: reading a property of
`undefined` or `null`. -/
inductive JSError where
  | typeError
  deriving DecidableEq

/-- The inbound request as the handler reads it: `request.method`, the decoded
pairs of `new URL(request.url).searchParams`, and the body text. -/
structure Request where
  method : String
  searchParams : List (String × String)
  body : String

/-- The bindings of `env`; a binding that is not configured reads `undefined`
(`none`). -/
structure Env where
  N8N_URL : Option String
  BUSINESS_PHONE_MSISDN : Option String
  VERIFY_TOKEN : Option String

/-- The value of `new Response(body, { status })`. -/
structure Response where
  body : String
  status : Nat
  deriving DecidableEq

/-- The arguments of one invocation of the global
`fetch(url, { method, headers, body })`. -/
structure OutboundCall where
  url : Option String
  method : String
  headers : List (String × String)
  body : String
  deriving DecidableEq

/-- How the promise of the outbound `fetch` settles. -/
inductive FetchOutcome where
  | resolved (status : Nat)
  | rejected
  deriving DecidableEq

/-- The JSON functions of the JavaScript runtime. `jsonParse` is `none` where
`JSON.parse` throws a `SyntaxError`; `jsonStringify` is `none` where
`JSON.stringify` throws, which it does with a `RangeError` on a value nested
deeper than its stack allows. -/
structure Runtime where
  jsonParse : String → Option Json
  jsonStringify : Json → Option String

/-- What one invocation of the handler does: how it completes and which
outbound calls it issued (the invocations of the global `fetch`). -/
structure Handled where
  result : Except JSError Response
  calls : List OutboundCall

/-! ## JavaScript operations used by the handler -/

/-- Own property `name` of an object with the given members. -/
def member (name : String) : List (String × Json) → JSValue
  | [] => none
  | (k, v) :: rest => if k = name then some v else member name rest

/-- The value of `url.searchParams.get(name)`: the first value stored under `name`, or
`null` (`none`) when there is none. -/
def searchParamsGet (name : String) : List (String × String) → Option String
  | [] => none
  | (k, v) :: rest => if k = name then some v else searchParamsGet name rest

/-- A `string | null` result seen as a JavaScript value. -/
def ofNullable : Option String → JSValue
  | none => some Json.null
  | some s => some (Json.str s)

/-- The text of the body of `new Response(init)` for `init : string | null`. -/
def bodyText : Option String → String
  | none => ""
  | some s => s

/-- The value of `v.name` for a value `v` that is neither `undefined` nor `null`, for
the names the handler reads (`entry`, `changes`, `value`, `messages`,
`statuses`, `from`). None of them is defined on a built-in prototype, so only
an object can have one. -/
def getProp (v : Json) (name : String) : JSValue :=
  match v with
  | Json.obj ms => member name ms
  | _ => none

/-- The value of `v[0]` for a value `v` that is neither `undefined` nor `null`: the
first element of an array, the first character of a string, the own property
`"0"` of an object. (For a first character outside the Basic Multilingual
Plane JavaScript gives its first UTF-16 code unit; either way the result is a
one-element string, which has none of the properties the handler reads.) -/
def getIndex0 (v : Json) : JSValue :=
  match v with
  | Json.arr xs => xs.head?
  | Json.obj ms => member "0" ms
  | Json.str s =>
    match s.data with
    | [] => none
    | c :: _ => some (Json.str (String.singleton c))
  | _ => none

/-- Optional chaining `v?.name`. -/
def optDot (v : JSValue) (name : String) : JSValue :=
  match v with
  | none => none
  | some Json.null => none
  | some j => getProp j name

/-- Optional chaining `v?.[0]`. -/
def optAt0 (v : JSValue) : JSValue :=
  match v with
  | none => none
  | some Json.null => none
  | some j => getIndex0 j

/-- Plain member access `v.name`: a `TypeError` on `undefined` and `null`. -/
def dot (v : JSValue) (name : String) : Except JSError JSValue :=
  match v with
  | none => Except.error JSError.typeError
  | some Json.null => Except.error JSError.typeError
  | some j => Except.ok (getProp j name)

/-- Plain index access `v[0]`: a `TypeError` on `undefined` and `null`. -/
def at0 (v : JSValue) : Except JSError JSValue :=
  match v with
  | none => Except.error JSError.typeError
  | some Json.null => Except.error JSError.typeError
  | some j => Except.ok (getIndex0 j)

/-- JavaScript truthiness (`ToBoolean`). -/
def truthy : JSValue → Bool
  | none => false
  | some Json.null => false
  | some (Json.bool b) => b
  | some (Json.num (JSNumber.finite _ m _)) => m != 0
  | some (Json.num (JSNumber.infinite _)) => true
  | some (Json.str s) => s != ""
  | some (Json.arr _) => true
  | some (Json.obj _) => true

/-- Strict equality `v === b` against an environment binding `b`, which is a
string or `undefined`. -/
def strictEq (v : JSValue) (b : Option String) : Bool :=
  match v, b with
  | none, none => true
  | some (Json.str s), some t => s == t
  | _, _ => false

/-! ## The handler -/

/-- The expression `raw?.entry?.[0]?.changes?.[0]?.value`. -/
def valueOf (raw : Json) : JSValue :=
  optDot (optAt0 (optDot (optAt0 (optDot (some raw) "entry")) "changes")) "value"

/-- The arguments of the outbound call of the handler for the request body
`body`: `fetch(env.N8N_URL, { method: "POST", headers, body })`. -/
def forwardCall (env : Env) (body : String) : OutboundCall :=
  ⟨env.N8N_URL, "POST", [("Content-Type", "application/json")], body⟩

/-- Step 2c of the handler, the `try`/`catch` around the outbound call
(lines 59-70). `JSON.stringify(raw)` is an argument of the call, so it is
evaluated inside the `try` before the call is issued: when it throws, the
`catch` answers 502 and no call was made. -/
def forward (rt : Runtime) (net : OutboundCall → FetchOutcome) (env : Env)
    (raw : Json) : Handled :=
  match rt.jsonStringify raw with
  | none => ⟨Except.ok ⟨"n8n unreachable", 502⟩, []⟩
  | some body =>
    match net (forwardCall env body) with
    | FetchOutcome.rejected => ⟨Except.ok ⟨"n8n unreachable", 502⟩, [forwardCall env body]⟩
    | FetchOutcome.resolved _ => ⟨Except.ok ⟨"ok", 200⟩, [forwardCall env body]⟩

/-- The handler `fetch(request, env)` of `src/workers.js`. -/
def fetch (rt : Runtime) (net : OutboundCall → FetchOutcome) (env : Env)
    (request : Request) : Handled :=
  -- 1) GET = webhook verification
  if request.method = "GET" then
    let token := searchParamsGet "hub.verify_token" request.searchParams
    let challenge := searchParamsGet "hub.challenge" request.searchParams
    if strictEq (ofNullable token) env.VERIFY_TOKEN && truthy (ofNullable challenge) then
      ⟨Except.ok ⟨bodyText challenge, 200⟩, []⟩
    else
      ⟨Except.ok ⟨"Forbidden", 403⟩, []⟩
  else
    -- 2) POST = WhatsApp events
    match rt.jsonParse request.body with
    | none => ⟨Except.ok ⟨"Bad JSON", 400⟩, []⟩
    | some raw =>
      let val := valueOf raw
      -- 2a) status events: `!val?.messages || val.statuses`
      if !truthy (optDot val "messages") then
        ⟨Except.ok ⟨"dropped status", 200⟩, []⟩
      else
        match dot val "statuses" with
        | Except.error e => ⟨Except.error e, []⟩
        | Except.ok statuses =>
          if truthy statuses then
            ⟨Except.ok ⟨"dropped status", 200⟩, []⟩
          else
            -- 2b) echo messages: `val.messages[0]?.from`
            match dot val "messages" with
            | Except.error e => ⟨Except.error e, []⟩
            | Except.ok messages =>
              match at0 messages with
              | Except.error e => ⟨Except.error e, []⟩
              | Except.ok first =>
                let sender := optDot first "from"
                if strictEq sender env.BUSINESS_PHONE_MSISDN then
                  ⟨Except.ok ⟨"dropped echo", 200⟩, []⟩
                else
                  -- 2c) forward to n8n
                  forward rt net env raw

/-! ## The handler in its world -/

/-- One message written by `log(...)`, with the values it prints. -/
inductive LogMessage where
  | handshake (token challenge : Option String)
  | payloadLength (contentLength : Option String)
  | dropStatus
  | dropEcho (sender : JSValue)
  | forwarded (url : Option String) (status : Nat)
  | forwardError

/-- What the handler reaches outside its arguments. `clock k` is what
`new Date()` reads at the reading number `k`; `console` holds the lines
written so far, each with its time stamp; `network k` is how the network
answers the outbound call number `k`; `sent` holds the outbound calls made so
far. -/
structure World where
  clock : Nat → Nat
  console : List (Nat × LogMessage)
  network : Nat → OutboundCall → FetchOutcome
  sent : List OutboundCall

/-- The helper `log` of the handler: reads the clock and writes one line. -/
def log (msg : LogMessage) (w : World) : World :=
  { w with console := w.console ++ [(w.clock w.console.length, msg)] }

/-- One invocation of the global `fetch`: the call is recorded and the network
of the moment decides its outcome. -/
def send (call : OutboundCall) (w : World) : FetchOutcome × World :=
  (w.network w.sent.length call, { w with sent := w.sent ++ [call] })

/-- The handler `fetch(request, env)` as it runs in a world: the body of
`src/workers.js` line by line with its `log` lines. `contentLength` is
`request.headers.get("content-length")`, which the handler reads only to log
it. -/
def fetchInWorld (rt : Runtime) (env : Env) (request : Request)
    (contentLength : Option String) (w : World) : Except JSError Response × World :=
  if request.method = "GET" then
    let token := searchParamsGet "hub.verify_token" request.searchParams
    let challenge := searchParamsGet "hub.challenge" request.searchParams
    let w1 := log (LogMessage.handshake token challenge) w
    if strictEq (ofNullable token) env.VERIFY_TOKEN && truthy (ofNullable challenge) then
      (Except.ok ⟨bodyText challenge, 200⟩, w1)
    else
      (Except.ok ⟨"Forbidden", 403⟩, w1)
  else
    match rt.jsonParse request.body with
    | none => (Except.ok ⟨"Bad JSON", 400⟩, w)
    | some raw =>
      let w1 := log (LogMessage.payloadLength contentLength) w
      let val := valueOf raw
      if !truthy (optDot val "messages") then
        (Except.ok ⟨"dropped status", 200⟩, log LogMessage.dropStatus w1)
      else
        match dot val "statuses" with
        | Except.error e => (Except.error e, w1)
        | Except.ok statuses =>
          if truthy statuses then
            (Except.ok ⟨"dropped status", 200⟩, log LogMessage.dropStatus w1)
          else
            match dot val "messages" with
            | Except.error e => (Except.error e, w1)
            | Except.ok messages =>
              match at0 messages with
              | Except.error e => (Except.error e, w1)
              | Except.ok first =>
                let sender := optDot first "from"
                if strictEq sender env.BUSINESS_PHONE_MSISDN then
                  (Except.ok ⟨"dropped echo", 200⟩, log (LogMessage.dropEcho sender) w1)
                else
                  match rt.jsonStringify raw with
                  | none => (Except.ok ⟨"n8n unreachable", 502⟩, log LogMessage.forwardError w1)
                  | some body =>
                    match send (forwardCall env body) w1 with
                    | (FetchOutcome.rejected, w2) =>
                      (Except.ok ⟨"n8n unreachable", 502⟩, log LogMessage.forwardError w2)
                    | (FetchOutcome.resolved status, w2) =>
                      (Except.ok ⟨"ok", 200⟩, log (LogMessage.forwarded env.N8N_URL status) w2)

/-- The same request handled `n` times in a row: each handling starts in the
world the one before left behind. The result is the list of completions,
oldest first, and the final world. -/
def fetchTimes (rt : Runtime) (env : Env) (request : Request)
    (contentLength : Option String) : Nat → World → List (Except JSError Response) × World
  | 0, w => ([], w)
  | n + 1, w =>
    let first := fetchInWorld rt env request contentLength w
    let later := fetchTimes rt env request contentLength n first.2
    (first.1 :: later.1, later.2)

/-! ## Envelope shapes named by the specification -/

/-- The value of the first change of the first entry of an envelope of the
documented shape: an object whose `entry` is a list starting with an object
whose `changes` is a list starting with an object with a member `value`. -/
def firstValue : Json → Option Json
  | Json.obj rms =>
    match member "entry" rms with
    | some (Json.arr (Json.obj ems :: _)) =>
      match member "changes" ems with
      | some (Json.arr (Json.obj cms :: _)) => member "value" cms
      | _ => none
    | _ => none
  | _ => none

/-- The envelopes in which a level of the path
`entry -> [0] -> changes -> [0] -> value -> messages` is missing: the body is
`null` or a scalar, has no `entry`, an empty `entry` list, a first entry
without `changes`, an empty `changes` list, a first change without `value`, or
a value object without `messages`. -/
inductive MissingLevel : Json → Prop where
  | null : MissingLevel Json.null
  | bool (b : Bool) : MissingLevel (Json.bool b)
  | num (n : JSNumber) : MissingLevel (Json.num n)
  | str (s : String) : MissingLevel (Json.str s)
  | noEntry (rms : List (String × Json)) :
      member "entry" rms = none → MissingLevel (Json.obj rms)
  | emptyEntry (rms : List (String × Json)) :
      member "entry" rms = some (Json.arr []) → MissingLevel (Json.obj rms)
  | noChanges (rms ems : List (String × Json)) (es : List Json) :
      member "entry" rms = some (Json.arr (Json.obj ems :: es)) →
      member "changes" ems = none → MissingLevel (Json.obj rms)
  | emptyChanges (rms ems : List (String × Json)) (es : List Json) :
      member "entry" rms = some (Json.arr (Json.obj ems :: es)) →
      member "changes" ems = some (Json.arr []) → MissingLevel (Json.obj rms)
  | noValue (rms ems cms : List (String × Json)) (es cs : List Json) :
      member "entry" rms = some (Json.arr (Json.obj ems :: es)) →
      member "changes" ems = some (Json.arr (Json.obj cms :: cs)) →
      member "value" cms = none → MissingLevel (Json.obj rms)
  | noMessages (raw : Json) (vms : List (String × Json)) :
      firstValue raw = some (Json.obj vms) →
      member "messages" vms = none → MissingLevel raw

/-- The sender of a message: its member `from`, `undefined` when the message
has none or is not an object. -/
def senderOf : Json → JSValue
  | Json.obj mms => member "from" mms
  | _ => none

/-- The three classifications of a delivery. -/
inductive Classification where
  | droppedStatus
  | droppedEcho
  | forward
  deriving DecidableEq

/-- The classification a completed invocation shows to the caller: the two
drop answers, and the two answers of the forwarding step. -/
def classificationOf (h : Handled) : Option Classification :=
  match h.result with
  | Except.error _ => none
  | Except.ok r =>
    if r = ⟨"dropped status", 200⟩ then some Classification.droppedStatus
    else if r = ⟨"dropped echo", 200⟩ then some Classification.droppedEcho
    else if r = ⟨"ok", 200⟩ ∨ r = ⟨"n8n unreachable", 502⟩ then some Classification.forward
    else none

mutual
/-- Whether every number inside a value is finite. -/
def finiteNumbers : Json → Bool
  | Json.null => true
  | Json.bool _ => true
  | Json.num (JSNumber.finite _ _ _) => true
  | Json.num (JSNumber.infinite _) => false
  | Json.str _ => true
  | Json.arr xs => finiteItems xs
  | Json.obj ms => finiteMembers ms
/-- Whether every number inside the elements of an array is finite. -/
def finiteItems : List Json → Bool
  | [] => true
  | x :: rest => finiteNumbers x && finiteItems rest
/-- Whether every number inside the members of an object is finite. -/
def finiteMembers : List (String × Json) → Bool
  | [] => true
  | (_, v) :: rest => finiteNumbers v && finiteMembers rest
end

/-- The round-trip contract of the JSON functions of a JavaScript runtime: a
value that `JSON.parse` returned and that holds only finite numbers is read
back from the text `JSON.stringify` writes for it. (An infinity is written
`null`, so it is not read back.) -/
def Runtime.RoundTrips (rt : Runtime) : Prop :=
  ∀ (text : String) (v : Json) (body : String),
    rt.jsonParse text = some v → finiteNumbers v = true →
    rt.jsonStringify v = some body → rt.jsonParse body = some v

/-! ## Fixtures -/

/-- The configuration of the header comment of `src/workers.js`. -/
def sampleEnv : Env :=
  ⟨some "https://app.n8n.cloud/webhook/wa-in", some "491701234567", some "deinVerifyToken"⟩

/-- A configuration with no binding set. -/
def emptyEnv : Env := ⟨none, none, none⟩

/-- A network on which every call resolves with status 200. -/
def netOk : OutboundCall → FetchOutcome := fun _ => FetchOutcome.resolved 200

/-- A network on which every call rejects. -/
def netDown : OutboundCall → FetchOutcome := fun _ => FetchOutcome.rejected

/-- A handshake request as the platform sends it. -/
def handshakeRequest (token challenge : String) : Request :=
  ⟨"GET", [("hub.mode", "subscribe"), ("hub.verify_token", token),
    ("hub.challenge", challenge)], ""⟩

/-- A notification envelope around one `value` object. -/
def envelope (value : Json) : Json :=
  Json.obj [("object", Json.str "whatsapp_business_account"),
    ("entry", Json.arr [Json.obj [("id", Json.str "1"),
      ("changes", Json.arr [Json.obj [("field", Json.str "messages"), ("value", value)]])]])]

/-- A text message from `sender`. -/
def textMessage (sender : String) : Json :=
  Json.obj [("from", Json.str sender), ("type", Json.str "text"),
    ("text", Json.obj [("body", Json.str "Hallo")])]

/-- Envelope of a delivery-status notification. -/
def statusPayload : Json :=
  Json.obj [("entry", Json.arr [Json.obj [("changes", Json.arr [Json.obj [("value",
    Json.obj [("statuses", Json.arr [Json.obj [("status", Json.str "delivered")]])])]])]])]

/-- Body text of `statusPayload`. -/
def statusText : String :=
  "\x7b\"entry\":[\x7b\"changes\":[\x7b\"value\":\x7b\"statuses\":[\x7b\"status\":\"delivered\"\x7d]\x7d\x7d]\x7d]\x7d"

/-- Envelope of a message sent from the business number itself. -/
def echoPayload : Json := envelope (Json.obj [("messages", Json.arr [textMessage "491701234567"])])

/-- Body text of `echoPayload`. -/
def echoText : String :=
  "\x7b\"object\":\"whatsapp_business_account\",\"entry\":[\x7b\"id\":\"1\",\"changes\":[\x7b\"field\":\"messages\",\"value\":\x7b\"messages\":[\x7b\"from\":\"491701234567\",\"type\":\"text\",\"text\":\x7b\"body\":\"Hallo\"\x7d\x7d]\x7d\x7d]\x7d]\x7d"

/-- Envelope of a message sent by a user. -/
def userPayload : Json := envelope (Json.obj [("messages", Json.arr [textMessage "491709999999"])])

/-- Body text of `userPayload`. -/
def userText : String :=
  "\x7b\"object\":\"whatsapp_business_account\",\"entry\":[\x7b\"id\":\"1\",\"changes\":[\x7b\"field\":\"messages\",\"value\":\x7b\"messages\":[\x7b\"from\":\"491709999999\",\"type\":\"text\",\"text\":\x7b\"body\":\"Hallo\"\x7d\x7d]\x7d\x7d]\x7d]\x7d"

/-- Envelope whose `messages` list is empty. -/
def emptyMessagesPayload : Json := envelope (Json.obj [("messages", Json.arr [])])

/-- Body text of `emptyMessagesPayload`. -/
def emptyMessagesText : String :=
  "\x7b\"object\":\"whatsapp_business_account\",\"entry\":[\x7b\"id\":\"1\",\"changes\":[\x7b\"field\":\"messages\",\"value\":\x7b\"messages\":[]\x7d\x7d]\x7d]\x7d"

/-- Body text of a user message with a number beyond the range of a double. -/
def overflowText : String :=
  "\x7b\"object\":\"whatsapp_business_account\",\"entry\":[\x7b\"id\":\"1\",\"changes\":[\x7b\"field\":\"messages\",\"value\":\x7b\"messages\":[\x7b\"from\":\"491709999999\",\"type\":\"location\",\"location\":\x7b\"latitude\":1e999\x7d\x7d]\x7d\x7d]\x7d]\x7d"

/-- What `JSON.parse` returns for `overflowText`: the literal `1e999` reads as
`Infinity`. -/
def overflowPayload : Json :=
  envelope (Json.obj [("messages", Json.arr [Json.obj [("from", Json.str "491709999999"),
    ("type", Json.str "location"),
    ("location", Json.obj [("latitude", Json.num (JSNumber.infinite false))])]])])

/-- What `JSON.stringify` returns for `overflowPayload`: `Infinity` is written
`null`. -/
def overflowForwardedText : String :=
  "\x7b\"object\":\"whatsapp_business_account\",\"entry\":[\x7b\"id\":\"1\",\"changes\":[\x7b\"field\":\"messages\",\"value\":\x7b\"messages\":[\x7b\"from\":\"491709999999\",\"type\":\"location\",\"location\":\x7b\"latitude\":null\x7d\x7d]\x7d\x7d]\x7d]\x7d"

/-- What `JSON.parse` returns for `overflowForwardedText`. -/
def overflowForwardedPayload : Json :=
  envelope (Json.obj [("messages", Json.arr [Json.obj [("from", Json.str "491709999999"),
    ("type", Json.str "location"),
    ("location", Json.obj [("latitude", Json.null)])]])])

/-- Envelope whose `messages` is a string instead of a list. -/
def stringMessagesPayload : Json := envelope (Json.obj [("messages", Json.str "hello")])

/-- Body text of `stringMessagesPayload`. -/
def stringMessagesText : String :=
  "\x7b\"object\":\"whatsapp_business_account\",\"entry\":[\x7b\"id\":\"1\",\"changes\":[\x7b\"field\":\"messages\",\"value\":\x7b\"messages\":\"hello\"\x7d\x7d]\x7d]\x7d"

/-- Envelope whose `messages` is `false`. -/
def falseMessagesPayload : Json := envelope (Json.obj [("messages", Json.bool false)])

/-- Body text of `falseMessagesPayload`. -/
def falseMessagesText : String :=
  "\x7b\"object\":\"whatsapp_business_account\",\"entry\":[\x7b\"id\":\"1\",\"changes\":[\x7b\"field\":\"messages\",\"value\":\x7b\"messages\":false\x7d\x7d]\x7d]\x7d"

/-- Envelope with a user message followed by a message from the business
number. -/
def userThenEchoPayload : Json :=
  envelope (Json.obj [("messages",
    Json.arr [textMessage "491709999999", textMessage "491701234567"])])

/-- Body text of `userThenEchoPayload`. -/
def userThenEchoText : String :=
  "\x7b\"object\":\"whatsapp_business_account\",\"entry\":[\x7b\"id\":\"1\",\"changes\":[\x7b\"field\":\"messages\",\"value\":\x7b\"messages\":[\x7b\"from\":\"491709999999\",\"type\":\"text\",\"text\":\x7b\"body\":\"Hallo\"\x7d\x7d,\x7b\"from\":\"491701234567\",\"type\":\"text\",\"text\":\x7b\"body\":\"Hallo\"\x7d\x7d]\x7d\x7d]\x7d]\x7d"

/-- The value `v` wrapped in `n` arrays of one element. -/
def nest : Nat → Json → Json
  | 0, v => v
  | n + 1, v => Json.arr [nest n v]

/-- Envelope with a user message that carries a field nested 100 arrays deep,
followed by a message from the business number. -/
def deepPayload : Json :=
  envelope (Json.obj [("messages", Json.arr [
    Json.obj [("from", Json.str "491709999999"), ("type", Json.str "text"),
      ("text", Json.obj [("body", Json.str "Hallo")]),
      ("context", nest 100 (Json.arr []))],
    textMessage "491701234567"])])

/-- Body text of `deepPayload`. -/
def deepText : String :=
  "\x7b\"object\":\"whatsapp_business_account\",\"entry\":[\x7b\"id\":\"1\",\"changes\":[\x7b\"field\":\"messages\",\"value\":\x7b\"messages\":[\x7b\"from\":\"491709999999\",\"type\":\"text\",\"text\":\x7b\"body\":\"Hallo\"\x7d,\"context\":[[[[[[[[[[[[[[[[[[[[[[[[[[[[[[[[[[[[[[[[[[[[[[[[[[[[[[[[[[[[[[[[[[[[[[[[[[[[[[[[[[[[[[[[[[[[[[[[[[[[[]]]]]]]]]]]]]]]]]]]]]]]]]]]]]]]]]]]]]]]]]]]]]]]]]]]]]]]]]]]]]]]]]]]]]]]]]]]]]]]]]]]]]]]]]]]]]]]]]]]]]\x7d,\x7b\"from\":\"491701234567\",\"type\":\"text\",\"text\":\x7b\"body\":\"Hallo\"\x7d\x7d]\x7d\x7d]\x7d]\x7d"

/-- The escape `JSON.stringify` writes for one character of a string. -/
def escapeChar (c : Char) : String :=
  if c.toNat = 34 then "\\\""
  else if c.toNat = 92 then "\\\\"
  else if c.toNat = 8 then "\\b"
  else if c.toNat = 9 then "\\t"
  else if c.toNat = 10 then "\\n"
  else if c.toNat = 12 then "\\f"
  else if c.toNat = 13 then "\\r"
  else if c.toNat < 32 then
    "\\u00" ++ String.singleton (Nat.digitChar (c.toNat / 16)) ++
      String.singleton (Nat.digitChar (c.toNat % 16))
  else String.singleton c

/-- A string as `JSON.stringify` writes it. -/
def quote (s : String) : String :=
  "\"" ++ String.join (s.data.map escapeChar) ++ "\""

/-- A number as text, for the fixtures: an infinity is written `null`, as
`JSON.stringify` does; a finite number is written from its mantissa and
exponent. That is the text of `JSON.stringify` for an integer below `10 ^ 21`
given with exponent 0 only (`JSON.stringify` writes `1.5` where this writes
`15e-1`, and `1e+21` where this writes `1e21`); the fixtures hold no other
finite number. -/
def numberText : JSNumber → String
  | JSNumber.infinite _ => "null"
  | JSNumber.finite negative m e =>
    if m = 0 then "0"
    else (if negative then "-" else "") ++ toString m ++ (if e = 0 then "" else "e" ++ toString e)

mutual
/-- Compact serialisation of a value for the fixtures, member by member in the
order listed. That is the order of `JSON.stringify(value)` for an object none
of whose keys is an integer index (`JSON.stringify` writes those first, in
ascending order); the fixtures hold no such key. -/
def serialize : Json → String
  | Json.null => "null"
  | Json.bool true => "true"
  | Json.bool false => "false"
  | Json.num n => numberText n
  | Json.str s => quote s
  | Json.arr xs => "[" ++ serializeItems xs ++ "]"
  | Json.obj ms => "\x7b" ++ serializeMembers ms ++ "\x7d"
/-- The elements of an array, separated by commas. -/
def serializeItems : List Json → String
  | [] => ""
  | x :: rest =>
    match rest with
    | [] => serialize x
    | _ :: _ => serialize x ++ "," ++ serializeItems rest
/-- The members of an object, separated by commas. -/
def serializeMembers : List (String × Json) → String
  | [] => ""
  | (k, v) :: rest =>
    match rest with
    | [] => quote k ++ ":" ++ serialize v
    | _ :: _ => quote k ++ ":" ++ serialize v ++ "," ++ serializeMembers rest
end

mutual
/-- How many arrays and objects are nested inside one another in a value. -/
def nestingDepth : Json → Nat
  | Json.arr xs => nestingDepthItems xs + 1
  | Json.obj ms => nestingDepthMembers ms + 1
  | _ => 0
/-- The deepest nesting among the elements of an array. -/
def nestingDepthItems : List Json → Nat
  | [] => 0
  | x :: rest => max (nestingDepth x) (nestingDepthItems rest)
/-- The deepest nesting among the members of an object. -/
def nestingDepthMembers : List (String × Json) → Nat
  | [] => 0
  | (_, v) :: rest => max (nestingDepth v) (nestingDepthMembers rest)
end

/-- The nesting the fixture runtime can serialise before its stack is
exhausted. -/
def stackLimit : Nat := 64

/-- The fixture for `JSON.stringify`: a `RangeError` beyond `stackLimit`
levels of nesting, the compact serialisation otherwise. -/
def fixtureStringify (v : Json) : Option String :=
  if nestingDepth v ≤ stackLimit then some (serialize v) else none

/-- The answers of `JSON.parse` on the fixture texts; every other text is
rejected. -/
def fixtureParse (text : String) : Option Json :=
  if text = statusText then some statusPayload
  else if text = echoText then some echoPayload
  else if text = userText then some userPayload
  else if text = emptyMessagesText then some emptyMessagesPayload
  else if text = overflowText then some overflowPayload
  else if text = overflowForwardedText then some overflowForwardedPayload
  else if text = "\x7b\x7d" then some (Json.obj [])
  else if text = stringMessagesText then some stringMessagesPayload
  else if text = falseMessagesText then some falseMessagesPayload
  else if text = userThenEchoText then some userThenEchoPayload
  else if text = deepText then some deepPayload
  else none

/-- A runtime for the fixtures. -/
def fixtureRuntime : Runtime := ⟨fixtureParse, fixtureStringify⟩

/-- A network that completes the first outbound call and fails every later
one. -/
def flakyNetwork : Nat → OutboundCall → FetchOutcome :=
  fun k _ => if k = 0 then FetchOutcome.resolved 200 else FetchOutcome.rejected

/-- A world at start: nothing written, nothing sent, the clock counting its
readings. -/
def freshWorld (network : Nat → OutboundCall → FetchOutcome) : World :=
  ⟨fun k => k, [], network, []⟩

/-! ## Theorems -/

set_option maxRecDepth 100000

/-! ### JavaScript operations -/

/-- Strict equality with a binding holds exactly when the value is that
binding: the same string, or `undefined` on both sides. -/
theorem strictEq_iff (v : JSValue) (b : Option String) :
    strictEq v b = true ↔ v = b.map Json.str := by
  cases b with
  | none =>
    cases v with
    | none => simp [strictEq]
    | some j => cases j <;> simp [strictEq]
  | some t =>
    cases v with
    | none => simp [strictEq]
    | some j => cases j <;> simp [strictEq]

/-- Reading `from` off the first message with optional chaining gives its
sender. -/
theorem optDot_from (first : Json) : optDot (some first) "from" = senderOf first := by
  cases first <;> simp [optDot, getProp, senderOf]

/-- On an envelope of the documented shape the navigation of the handler finds
the value of the first change of the first entry. -/
theorem valueOf_of_firstValue (raw v : Json) (h : firstValue raw = some v) :
    valueOf raw = some v := by
  cases raw with
  | obj rms =>
    simp only [firstValue] at h
    split at h
    · rename_i ems es hentry
      split at h
      · rename_i cms cs hchanges
        simp [valueOf, optDot, optAt0, getProp, getIndex0, hentry, hchanges, h]
      · exact absurd h (by simp)
    · exact absurd h (by simp)
  | _ => simp [firstValue] at h

/-- When `v?.name` is truthy, `v` is neither `undefined` nor `null`, so a plain
read of any property of `v` does not raise and agrees with the optional one. -/
theorem dot_of_truthy (v : JSValue) (name other : String)
    (h : truthy (optDot v name) = true) : dot v other = Except.ok (optDot v other) := by
  cases v with
  | none => simp [optDot, truthy] at h
  | some j => cases j <;> simp_all [optDot, dot, truthy]

/-- A truthy value can be indexed without raising. -/
theorem at0_of_truthy (v : JSValue) (h : truthy v = true) : at0 v = Except.ok (optAt0 v) := by
  cases v with
  | none => simp [truthy] at h
  | some j => cases j <;> simp_all [at0, optAt0, truthy]

/-! ### The handler in closed form -/

/-- The handler on a POST request whose body parses to an envelope with a value
object: what is left is the classification on the members of that object. -/
theorem fetch_value_object (rt : Runtime) (net : OutboundCall → FetchOutcome) (env : Env)
    (request : Request) (raw : Json) (vms : List (String × Json))
    (hmethod : request.method = "POST")
    (hparse : rt.jsonParse request.body = some raw)
    (hval : firstValue raw = some (Json.obj vms)) :
    fetch rt net env request =
      if !truthy (member "messages" vms) then
        ⟨Except.ok ⟨"dropped status", 200⟩, []⟩
      else if truthy (member "statuses" vms) then
        ⟨Except.ok ⟨"dropped status", 200⟩, []⟩
      else
        match at0 (member "messages" vms) with
        | Except.error e => ⟨Except.error e, []⟩
        | Except.ok first =>
          if strictEq (optDot first "from") env.BUSINESS_PHONE_MSISDN then
            ⟨Except.ok ⟨"dropped echo", 200⟩, []⟩
          else
            forward rt net env raw := by
  have hv := valueOf_of_firstValue raw _ hval
  simp [fetch, hmethod, hparse, hv, optDot, dot, getProp]

/-- The handler on a genuine inbound message: the value object has a non-empty
`messages` list and no `statuses`, and the sender of the first message is not
the configured own number. The handler goes to the forwarding step with the
whole parsed envelope. -/
theorem fetch_genuine (rt : Runtime) (net : OutboundCall → FetchOutcome) (env : Env)
    (request : Request) (raw : Json) (vms : List (String × Json)) (first : Json)
    (rest : List Json)
    (hmethod : request.method = "POST")
    (hparse : rt.jsonParse request.body = some raw)
    (hval : firstValue raw = some (Json.obj vms))
    (hmessages : member "messages" vms = some (Json.arr (first :: rest)))
    (hstatuses : member "statuses" vms = none)
    (hsender : senderOf first ≠ env.BUSINESS_PHONE_MSISDN.map Json.str) :
    fetch rt net env request = forward rt net env raw := by
  have hne : strictEq (senderOf first) env.BUSINESS_PHONE_MSISDN = false := by
    rw [Bool.eq_false_iff]
    intro h
    exact hsender ((strictEq_iff _ _).1 h)
  rw [fetch_value_object rt net env request raw vms hmethod hparse hval]
  simp [hmessages, hstatuses, truthy, at0, getIndex0, optDot_from, hne]

/-- The forwarding step when `JSON.stringify` throws: 502 and no call. -/
theorem forward_of_none (rt : Runtime) (net : OutboundCall → FetchOutcome) (env : Env)
    (raw : Json) (h : rt.jsonStringify raw = none) :
    forward rt net env raw = ⟨Except.ok ⟨"n8n unreachable", 502⟩, []⟩ := by
  simp [forward, h]

/-- The forwarding step when `JSON.stringify` returns `body`: one call with
that body, and the answer follows its outcome. -/
theorem forward_of_some (rt : Runtime) (net : OutboundCall → FetchOutcome) (env : Env)
    (raw : Json) (body : String) (h : rt.jsonStringify raw = some body) :
    forward rt net env raw =
      match net (forwardCall env body) with
      | FetchOutcome.rejected => ⟨Except.ok ⟨"n8n unreachable", 502⟩, [forwardCall env body]⟩
      | FetchOutcome.resolved _ => ⟨Except.ok ⟨"ok", 200⟩, [forwardCall env body]⟩ := by
  simp [forward, h]

/-- The three ways the forwarding step ends. -/
theorem forward_cases (rt : Runtime) (net : OutboundCall → FetchOutcome) (env : Env)
    (raw : Json) :
    (rt.jsonStringify raw = none ∧
        forward rt net env raw = ⟨Except.ok ⟨"n8n unreachable", 502⟩, []⟩) ∨
      ∃ body, rt.jsonStringify raw = some body ∧
        ((net (forwardCall env body) = FetchOutcome.rejected ∧
            forward rt net env raw =
              ⟨Except.ok ⟨"n8n unreachable", 502⟩, [forwardCall env body]⟩) ∨
          ((∃ s, net (forwardCall env body) = FetchOutcome.resolved s) ∧
            forward rt net env raw = ⟨Except.ok ⟨"ok", 200⟩, [forwardCall env body]⟩)) := by
  cases hs : rt.jsonStringify raw with
  | none => exact Or.inl ⟨rfl, forward_of_none rt net env raw hs⟩
  | some body =>
    refine Or.inr ⟨body, rfl, ?_⟩
    rw [forward_of_some rt net env raw body hs]
    cases hn : net (forwardCall env body) with
    | resolved s => exact Or.inr ⟨⟨s, rfl⟩, rfl⟩
    | rejected => exact Or.inl ⟨rfl, rfl⟩

/-- The handler on a request that is not a GET and whose body parses to `raw`:
no read raises, and the answer is decided by the truthiness of
`val?.messages` and `val?.statuses`, by the sender of `messages[0]` and by the
forwarding step. -/
theorem fetch_delivery (rt : Runtime) (net : OutboundCall → FetchOutcome) (env : Env)
    (request : Request) (raw : Json)
    (hmethod : request.method ≠ "GET")
    (hparse : rt.jsonParse request.body = some raw) :
    fetch rt net env request =
      if !truthy (optDot (valueOf raw) "messages") ||
          truthy (optDot (valueOf raw) "statuses") then
        ⟨Except.ok ⟨"dropped status", 200⟩, []⟩
      else if strictEq (optDot (optAt0 (optDot (valueOf raw) "messages")) "from")
          env.BUSINESS_PHONE_MSISDN then
        ⟨Except.ok ⟨"dropped echo", 200⟩, []⟩
      else
        forward rt net env raw := by
  cases hm : truthy (optDot (valueOf raw) "messages") with
  | false => simp [fetch, hmethod, hparse, hm]
  | true =>
    have hs := dot_of_truthy (valueOf raw) "messages" "statuses" hm
    have hd := dot_of_truthy (valueOf raw) "messages" "messages" hm
    have ha := at0_of_truthy (optDot (valueOf raw) "messages") hm
    simp only [fetch, hmethod, hparse, hm, hs, hd, ha, if_false, Bool.not_true,
      Bool.false_or, Bool.false_eq_true]

/-- A GET request makes no outbound call and is answered by the handshake
alone: the challenge with status 200, or 403 "Forbidden". -/
theorem fetch_get (rt : Runtime) (net : OutboundCall → FetchOutcome) (env : Env)
    (request : Request) (hmethod : request.method = "GET") :
    fetch rt net env request =
        ⟨Except.ok ⟨bodyText (searchParamsGet "hub.challenge" request.searchParams), 200⟩, []⟩ ∨
      fetch rt net env request = ⟨Except.ok ⟨"Forbidden", 403⟩, []⟩ := by
  simp only [fetch, hmethod, if_true]
  split
  · exact Or.inl rfl
  · exact Or.inr rfl

/-- A request that is not a GET is answered 400 when its body does not parse,
and otherwise by one of the two drops or by the forwarding step. -/
theorem fetch_delivery_cases (rt : Runtime) (net : OutboundCall → FetchOutcome) (env : Env)
    (request : Request) (hmethod : request.method ≠ "GET") :
    (rt.jsonParse request.body = none ∧
        fetch rt net env request = ⟨Except.ok ⟨"Bad JSON", 400⟩, []⟩) ∨
      ∃ raw, rt.jsonParse request.body = some raw ∧
        (fetch rt net env request = ⟨Except.ok ⟨"dropped status", 200⟩, []⟩ ∨
          fetch rt net env request = ⟨Except.ok ⟨"dropped echo", 200⟩, []⟩ ∨
          fetch rt net env request = forward rt net env raw) := by
  cases hparse : rt.jsonParse request.body with
  | none =>
    left
    exact ⟨rfl, by simp [fetch, hmethod, hparse]⟩
  | some raw =>
    right
    refine ⟨raw, rfl, ?_⟩
    rw [fetch_delivery rt net env request raw hmethod hparse]
    split
    · exact Or.inl rfl
    · split
      · exact Or.inr (Or.inl rfl)
      · exact Or.inr (Or.inr rfl)

/-- The answer of the forwarding step is "ok" or "n8n unreachable". -/
theorem forward_result (rt : Runtime) (net : OutboundCall → FetchOutcome) (env : Env)
    (raw : Json) :
    (forward rt net env raw).result = Except.ok ⟨"ok", 200⟩ ∨
      (forward rt net env raw).result = Except.ok ⟨"n8n unreachable", 502⟩ := by
  rcases forward_cases rt net env raw with ⟨_, h⟩ | ⟨_, _, ⟨_, h⟩ | ⟨_, h⟩⟩ <;> rw [h] <;> simp

/-- The classification shown by the forwarding step. -/
theorem classificationOf_forward (rt : Runtime) (net : OutboundCall → FetchOutcome)
    (env : Env) (raw : Json) :
    classificationOf (forward rt net env raw) = some Classification.forward := by
  rcases forward_cases rt net env raw with ⟨_, h⟩ | ⟨_, _, ⟨_, h⟩ | ⟨_, h⟩⟩ <;> rw [h] <;> rfl

/-- The forwarding step depends on the network only through whether the one
call it issues completes. -/
theorem forward_congr_net (rt : Runtime) (net net2 : OutboundCall → FetchOutcome) (env : Env)
    (raw : Json)
    (h : ∀ body, rt.jsonStringify raw = some body →
      (net (forwardCall env body) = FetchOutcome.rejected ↔
        net2 (forwardCall env body) = FetchOutcome.rejected)) :
    forward rt net env raw = forward rt net2 env raw := by
  cases hs : rt.jsonStringify raw with
  | none => rw [forward_of_none rt net env raw hs, forward_of_none rt net2 env raw hs]
  | some body =>
    have hiff := h body hs
    rw [forward_of_some rt net env raw body hs, forward_of_some rt net2 env raw body hs]
    cases h1 : net (forwardCall env body) with
    | resolved s =>
      cases h2 : net2 (forwardCall env body) with
      | resolved s2 => rfl
      | rejected =>
        rw [h1, h2] at hiff
        exact absurd (hiff.2 rfl) (by simp)
    | rejected =>
      cases h2 : net2 (forwardCall env body) with
      | resolved s2 =>
        rw [h1, h2] at hiff
        exact absurd (hiff.1 rfl) (by simp)
      | rejected => rfl

/-- The handler depends on the network only through whether the one call of
the forwarding step completes. -/
theorem fetch_congr_net (rt : Runtime) (net net2 : OutboundCall → FetchOutcome) (env : Env)
    (request : Request)
    (h : ∀ raw body, rt.jsonParse request.body = some raw → rt.jsonStringify raw = some body →
      (net (forwardCall env body) = FetchOutcome.rejected ↔
        net2 (forwardCall env body) = FetchOutcome.rejected)) :
    fetch rt net env request = fetch rt net2 env request := by
  by_cases hget : request.method = "GET"
  · simp [fetch, hget]
  · cases hparse : rt.jsonParse request.body with
    | none => simp [fetch, hget, hparse]
    | some raw =>
      rw [fetch_delivery rt net env request raw hget hparse,
        fetch_delivery rt net2 env request raw hget hparse,
        forward_congr_net rt net net2 env raw (fun body hs => h raw body hparse hs)]

/-- The handler in a world: its completion and the calls it adds are those of
`fetch` on the network of the moment, whatever the clock, the console and the
earlier calls are; the network is left as it was. -/
theorem fetchInWorld_fetch (rt : Runtime) (env : Env) (request : Request)
    (contentLength : Option String) (w : World) :
    (fetchInWorld rt env request contentLength w).1 =
        (fetch rt (w.network w.sent.length) env request).result ∧
      (fetchInWorld rt env request contentLength w).2.sent =
        w.sent ++ (fetch rt (w.network w.sent.length) env request).calls ∧
      (fetchInWorld rt env request contentLength w).2.network = w.network := by
  unfold fetchInWorld fetch
  by_cases hget : request.method = "GET"
  · simp only [hget, if_true]
    split <;> simp [log]
  · simp only [hget, if_false]
    cases hp : rt.jsonParse request.body with
    | none => simp
    | some raw =>
      simp only []
      split
      · simp [log]
      · split
        · simp [log]
        · split
          · simp [log]
          · split
            · simp [log]
            · split
              · simp [log]
              · split
                · simp [log]
                · cases hs : rt.jsonStringify raw with
                  | none => simp [forward, hs, log]
                  | some body =>
                    simp only [forward, hs, send, log]
                    cases hn : w.network w.sent.length (forwardCall env body) <;> simp [hn]

/-- Handling a request `n` times gives `n` completions. -/
theorem fetchTimes_length (rt : Runtime) (env : Env) (request : Request)
    (contentLength : Option String) (n : Nat) (w : World) :
    (fetchTimes rt env request contentLength n w).1.length = n := by
  induction n generalizing w with
  | zero => rfl
  | succ n ih => simp [fetchTimes, ih]

/-- The forwarding step issues exactly the call with the serialised body when
`JSON.stringify` returns. -/
theorem forward_calls_of_some (rt : Runtime) (net : OutboundCall → FetchOutcome) (env : Env)
    (raw : Json) (body : String) (h : rt.jsonStringify raw = some body) :
    (forward rt net env raw).calls = [forwardCall env body] := by
  rw [forward_of_some rt net env raw body h]
  cases net (forwardCall env body) <;> rfl

/-- A request that goes to the forwarding step, handled `n` times in a row with
`JSON.stringify` returning `body`: every handling adds the same call, and the
completion number `k` is the one of the forwarding step on the network as it
answers that call. -/
theorem fetchTimes_forward (rt : Runtime) (env : Env) (request : Request)
    (contentLength : Option String) (raw : Json) (body : String)
    (hfetch : ∀ net, fetch rt net env request = forward rt net env raw)
    (hs : rt.jsonStringify raw = some body) (n : Nat) (w : World) :
    (fetchTimes rt env request contentLength n w).2.sent =
        w.sent ++ List.replicate n (forwardCall env body) ∧
      (fetchTimes rt env request contentLength n w).2.network = w.network ∧
      (fetchTimes rt env request contentLength n w).1 =
        (List.range n).map
          (fun k => (forward rt (w.network (w.sent.length + k)) env raw).result) := by
  induction n generalizing w with
  | zero => simp [fetchTimes]
  | succ n ih =>
    obtain ⟨h1, h2, h3⟩ := fetchInWorld_fetch rt env request contentLength w
    rw [hfetch] at h1 h2
    rw [forward_calls_of_some rt _ env raw body hs] at h2
    obtain ⟨i1, i2, i3⟩ := ih (fetchInWorld rt env request contentLength w).2
    refine ⟨?_, ?_, ?_⟩
    · simp only [fetchTimes]
      rw [i1, h2, List.append_assoc, List.replicate_succ]
      rfl
    · simp only [fetchTimes]
      rw [i2, h3]
    · simp only [fetchTimes]
      rw [i3, h1, h2, h3, List.range_succ_eq_map, List.map_cons, List.map_map]
      congr 1
      apply List.map_congr_left
      intro k _
      simp [Nat.add_assoc, Nat.add_comm 1 k]

/-- A request that goes to the forwarding step, handled `n` times in a row with
`JSON.stringify` throwing: no call is added and every completion is 502. -/
theorem fetchTimes_forward_none (rt : Runtime) (env : Env) (request : Request)
    (contentLength : Option String) (raw : Json)
    (hfetch : ∀ net, fetch rt net env request = forward rt net env raw)
    (hs : rt.jsonStringify raw = none) (n : Nat) (w : World) :
    (fetchTimes rt env request contentLength n w).2.sent = w.sent ∧
      (fetchTimes rt env request contentLength n w).1 =
        List.replicate n (Except.ok ⟨"n8n unreachable", 502⟩) := by
  induction n generalizing w with
  | zero => simp [fetchTimes]
  | succ n ih =>
    obtain ⟨h1, h2, _⟩ := fetchInWorld_fetch rt env request contentLength w
    rw [hfetch, forward_of_none rt _ env raw hs] at h1 h2
    obtain ⟨i1, i2⟩ := ih (fetchInWorld rt env request contentLength w).2
    refine ⟨?_, ?_⟩
    · simp only [fetchTimes]
      rw [i1, h2]
      simp
    · simp only [fetchTimes]
      rw [i2, h1, List.replicate_succ]

/-- One entry of the fixture tables read back. -/
theorem fixture_entry (v : Json) (text : String) (h1 : fixtureStringify v = some text)
    (h2 : fixtureParse text = some v) (body : String) (hs : fixtureStringify v = some body) :
    fixtureParse body = some v := by
  rw [h1] at hs
  cases hs
  exact h2

/-- A conditional with value `some v` took its first branch with that value, or
its second. -/
theorem ite_eq_some_cases {α : Type} (c : Prop) [Decidable c] (a : α) (r : Option α) (v : α)
    (h : (if c then some a else r) = some v) : a = v ∨ r = some v := by
  by_cases hc : c
  · rw [if_pos hc] at h
    exact Or.inl (Option.some.inj h)
  · rw [if_neg hc] at h
    exact Or.inr h

/-- The fixture runtime keeps the round-trip contract. -/
theorem fixtureRuntime_roundTrips : fixtureRuntime.RoundTrips := by
  intro text v body hp hfin hs
  change fixtureParse text = some v at hp
  change fixtureStringify v = some body at hs
  change fixtureParse body = some v
  unfold fixtureParse at hp
  rcases ite_eq_some_cases _ _ _ _ hp with h | hp
  · subst h
    exact fixture_entry statusPayload statusText rfl rfl body hs
  rcases ite_eq_some_cases _ _ _ _ hp with h | hp
  · subst h
    exact fixture_entry echoPayload echoText rfl rfl body hs
  rcases ite_eq_some_cases _ _ _ _ hp with h | hp
  · subst h
    exact fixture_entry userPayload userText rfl rfl body hs
  rcases ite_eq_some_cases _ _ _ _ hp with h | hp
  · subst h
    exact fixture_entry emptyMessagesPayload emptyMessagesText rfl rfl body hs
  rcases ite_eq_some_cases _ _ _ _ hp with h | hp
  · subst h
    exact absurd hfin (by decide)
  rcases ite_eq_some_cases _ _ _ _ hp with h | hp
  · subst h
    exact fixture_entry overflowForwardedPayload overflowForwardedText rfl rfl body hs
  rcases ite_eq_some_cases _ _ _ _ hp with h | hp
  · subst h
    exact fixture_entry (Json.obj []) "\x7b\x7d" rfl rfl body hs
  rcases ite_eq_some_cases _ _ _ _ hp with h | hp
  · subst h
    exact fixture_entry stringMessagesPayload stringMessagesText rfl rfl body hs
  rcases ite_eq_some_cases _ _ _ _ hp with h | hp
  · subst h
    exact fixture_entry falseMessagesPayload falseMessagesText rfl rfl body hs
  rcases ite_eq_some_cases _ _ _ _ hp with h | hp
  · subst h
    exact fixture_entry userThenEchoPayload userThenEchoText rfl rfl body hs
  rcases ite_eq_some_cases _ _ _ _ hp with h | hp
  · subst h
    have hnone : fixtureStringify deepPayload = none := rfl
    rw [hnone] at hs
    cases hs
  · cases hp

/-! ### Claims -/

/-- C1 (handshake accept): a GET request whose `hub.verify_token` equals the
configured `VERIFY_TOKEN` and whose `hub.challenge` is a non-empty string `c`
is answered 200 with body exactly `c`, and no outbound call is made. -/
theorem handshake_accept (rt : Runtime) (net : OutboundCall → FetchOutcome) (env : Env)
    (request : Request) (t c : String)
    (hmethod : request.method = "GET")
    (htoken : searchParamsGet "hub.verify_token" request.searchParams = some t)
    (hsecret : env.VERIFY_TOKEN = some t)
    (hchallenge : searchParamsGet "hub.challenge" request.searchParams = some c)
    (hne : c ≠ "") :
    fetch rt net env request = ⟨Except.ok ⟨c, 200⟩, []⟩ := by
  simp [fetch, hmethod, htoken, hsecret, hchallenge, ofNullable, strictEq, truthy, bodyText, hne]

/-- Witness of C1: the platform's handshake against the documented configuration. -/
theorem handshake_accept_witness :
    fetch fixtureRuntime netDown sampleEnv (handshakeRequest "deinVerifyToken" "1158201444")
      = ⟨Except.ok ⟨"1158201444", 200⟩, []⟩ :=
  handshake_accept fixtureRuntime netDown sampleEnv
    (handshakeRequest "deinVerifyToken" "1158201444") "deinVerifyToken" "1158201444"
    rfl (by decide) rfl (by decide) (by decide)

/-- C2 (handshake reject): a GET request for which it is not the case that the
token equals the configured `VERIFY_TOKEN` and the challenge is present and
non-empty is answered 403 with body "Forbidden", and no outbound call is made.
In particular (second part) an absent token is rejected when `VERIFY_TOKEN` is
not configured either. -/
theorem handshake_reject (rt : Runtime) (net : OutboundCall → FetchOutcome) (env : Env)
    (request : Request)
    (hmethod : request.method = "GET") :
    ((¬ ∃ t c, searchParamsGet "hub.verify_token" request.searchParams = some t ∧
        env.VERIFY_TOKEN = some t ∧
        searchParamsGet "hub.challenge" request.searchParams = some c ∧ c ≠ "") →
      fetch rt net env request = ⟨Except.ok ⟨"Forbidden", 403⟩, []⟩) ∧
    (searchParamsGet "hub.verify_token" request.searchParams = none →
      env.VERIFY_TOKEN = none →
      fetch rt net env request = ⟨Except.ok ⟨"Forbidden", 403⟩, []⟩) := by
  constructor
  · intro hno
    cases htok : searchParamsGet "hub.verify_token" request.searchParams with
    | none => simp [fetch, hmethod, htok, ofNullable, strictEq]
    | some t =>
      cases hsec : env.VERIFY_TOKEN with
      | none => simp [fetch, hmethod, htok, hsec, ofNullable, strictEq]
      | some s =>
        cases hch : searchParamsGet "hub.challenge" request.searchParams with
        | none => simp [fetch, hmethod, htok, hsec, hch, ofNullable, strictEq, truthy]
        | some c =>
          by_cases hts : t = s
          · subst hts
            by_cases hc : c = ""
            · simp [fetch, hmethod, htok, hsec, hch, ofNullable, strictEq, truthy, hc]
            · exact absurd ⟨t, c, htok, hsec, hch, hc⟩ hno
          · simp [fetch, hmethod, htok, hsec, hch, ofNullable, strictEq, truthy, hts]
  · intro htok hsec
    simp [fetch, hmethod, htok, hsec, ofNullable, strictEq]

/-- Witness of C2: no token in the query and no `VERIFY_TOKEN` configured. -/
theorem handshake_reject_witness :
    fetch fixtureRuntime netOk emptyEnv ⟨"GET", [("hub.challenge", "1158201444")], ""⟩
      = ⟨Except.ok ⟨"Forbidden", 403⟩, []⟩ :=
  (handshake_reject fixtureRuntime netOk emptyEnv
    ⟨"GET", [("hub.challenge", "1158201444")], ""⟩ rfl).2 (by decide) rfl

/-- C3 (malformed input): a POST request whose body the runtime cannot parse as
JSON is answered 400 with body "Bad JSON" for every configuration and every
network, and no outbound call is made. -/
theorem bad_json (rt : Runtime) (net : OutboundCall → FetchOutcome) (env : Env)
    (request : Request)
    (hmethod : request.method = "POST")
    (hparse : rt.jsonParse request.body = none) :
    fetch rt net env request = ⟨Except.ok ⟨"Bad JSON", 400⟩, []⟩ := by
  simp [fetch, hmethod, hparse]

/-- Witness of C3: the literal text `not json`. -/
theorem bad_json_witness :
    fetch fixtureRuntime netOk sampleEnv ⟨"POST", [], "not json"⟩
      = ⟨Except.ok ⟨"Bad JSON", 400⟩, []⟩ :=
  bad_json fixtureRuntime netOk sampleEnv ⟨"POST", [], "not json"⟩ rfl rfl

/-- C4 (status drop has priority): a POST request with a parseable body whose
first entry's first change's value object carries a `statuses` list, empty or
not, is answered 200 "dropped status" with no outbound call, whatever else the
value object carries (a `messages` list from the own number or from another
sender included). -/
theorem status_drop_priority (rt : Runtime) (net : OutboundCall → FetchOutcome) (env : Env)
    (request : Request) (raw : Json) (vms : List (String × Json)) (ss : List Json)
    (hmethod : request.method = "POST")
    (hparse : rt.jsonParse request.body = some raw)
    (hval : firstValue raw = some (Json.obj vms))
    (hstatuses : member "statuses" vms = some (Json.arr ss)) :
    fetch rt net env request = ⟨Except.ok ⟨"dropped status", 200⟩, []⟩ := by
  rw [fetch_value_object rt net env request raw vms hmethod hparse hval]
  simp [hstatuses, truthy]

/-- Witness of C4: value = `{statuses:[{status:"delivered"}]}`. -/
theorem status_drop_priority_witness :
    fetch fixtureRuntime netOk sampleEnv ⟨"POST", [], statusText⟩
      = ⟨Except.ok ⟨"dropped status", 200⟩, []⟩ :=
  status_drop_priority fixtureRuntime netOk sampleEnv ⟨"POST", [], statusText⟩ statusPayload
    [("statuses", Json.arr [Json.obj [("status", Json.str "delivered")]])]
    [Json.obj [("status", Json.str "delivered")]] rfl rfl rfl rfl

/-- With a level of the path missing, `val?.messages` is `undefined`. -/
theorem messages_undefined_of_missing (raw : Json) (h : MissingLevel raw) :
    optDot (valueOf raw) "messages" = none := by
  cases h with
  | null => simp [valueOf, optDot, optAt0]
  | bool b => simp [valueOf, optDot, optAt0, getProp]
  | num n => simp [valueOf, optDot, optAt0, getProp]
  | str s => simp [valueOf, optDot, optAt0, getProp]
  | noEntry rms h1 => simp [valueOf, optDot, optAt0, getProp, h1]
  | emptyEntry rms h1 => simp [valueOf, optDot, optAt0, getProp, getIndex0, h1]
  | noChanges rms ems es h1 h2 => simp [valueOf, optDot, optAt0, getProp, getIndex0, h1, h2]
  | emptyChanges rms ems es h1 h2 =>
    simp [valueOf, optDot, optAt0, getProp, getIndex0, h1, h2]
  | noValue rms ems cms es cs h1 h2 h3 =>
    simp [valueOf, optDot, optAt0, getProp, getIndex0, h1, h2, h3]
  | noMessages raw vms h1 h2 =>
    simp [valueOf_of_firstValue raw _ h1, optDot, getProp, h2]

/-- C5 (absent envelope fields are a status event): a POST request with a
parseable body in which a level of the path
`entry -> [0] -> changes -> [0] -> value -> messages` is missing is answered
200 "dropped status"; the handler does not raise and makes no outbound call. -/
theorem absent_fields_dropped (rt : Runtime) (net : OutboundCall → FetchOutcome) (env : Env)
    (request : Request) (raw : Json)
    (hmethod : request.method = "POST")
    (hparse : rt.jsonParse request.body = some raw)
    (hmissing : MissingLevel raw) :
    fetch rt net env request = ⟨Except.ok ⟨"dropped status", 200⟩, []⟩ := by
  simp [fetch, hmethod, hparse, messages_undefined_of_missing raw hmissing, truthy]

/-- Witness of C5: the body `{}`. -/
theorem absent_fields_dropped_witness :
    fetch fixtureRuntime netOk sampleEnv ⟨"POST", [], "\x7b\x7d"⟩
      = ⟨Except.ok ⟨"dropped status", 200⟩, []⟩ :=
  absent_fields_dropped fixtureRuntime netOk sampleEnv ⟨"POST", [], "\x7b\x7d"⟩ (Json.obj [])
    rfl rfl (MissingLevel.noEntry [] rfl)

/-- Counterexample to C6 as stated: the envelope whose value object is
`{"messages":[]}` is not dropped as a status event under the documented
configuration; it is forwarded and answered "ok". -/
theorem empty_messages_forwarded :
    fixtureRuntime.jsonParse emptyMessagesText = some emptyMessagesPayload ∧
    firstValue emptyMessagesPayload = some (Json.obj [("messages", Json.arr [])]) ∧
    fetch fixtureRuntime netOk sampleEnv ⟨"POST", [], emptyMessagesText⟩ =
      ⟨Except.ok ⟨"ok", 200⟩,
        [⟨some "https://app.n8n.cloud/webhook/wa-in", "POST",
          [("Content-Type", "application/json")], emptyMessagesText⟩]⟩ ∧
    (fetch fixtureRuntime netOk sampleEnv ⟨"POST", [], emptyMessagesText⟩).result ≠
      Except.ok ⟨"dropped status", 200⟩ := by
  refine ⟨rfl, rfl, rfl, ?_⟩
  have h : (fetch fixtureRuntime netOk sampleEnv ⟨"POST", [], emptyMessagesText⟩).result =
      Except.ok ⟨"ok", 200⟩ := rfl
  rw [h]
  simp

/-- C6 as amended (an empty `messages` list is not a status event): for a POST
request with a parseable body whose value object has `messages = []` and no
`statuses`, under a configuration in which `BUSINESS_PHONE_MSISDN` is set, the
handler goes to the forwarding step with the whole envelope. When
`JSON.stringify(raw)` throws, the answer is 502 "n8n unreachable" and no call
is made; when it returns, one outbound call carries its text and the answer is
502 "n8n unreachable" if the call fails and 200 "ok" if it completes. -/
theorem empty_messages_classification (rt : Runtime) (net : OutboundCall → FetchOutcome)
    (env : Env) (request : Request) (raw : Json) (vms : List (String × Json)) (own : String)
    (hmethod : request.method = "POST")
    (hparse : rt.jsonParse request.body = some raw)
    (hval : firstValue raw = some (Json.obj vms))
    (hmessages : member "messages" vms = some (Json.arr []))
    (hstatuses : member "statuses" vms = none)
    (hown : env.BUSINESS_PHONE_MSISDN = some own) :
    (rt.jsonStringify raw = none →
      fetch rt net env request = ⟨Except.ok ⟨"n8n unreachable", 502⟩, []⟩) ∧
    (∀ body, rt.jsonStringify raw = some body →
      (net (forwardCall env body) = FetchOutcome.rejected →
        fetch rt net env request =
          ⟨Except.ok ⟨"n8n unreachable", 502⟩, [forwardCall env body]⟩) ∧
      (∀ s, net (forwardCall env body) = FetchOutcome.resolved s →
        fetch rt net env request = ⟨Except.ok ⟨"ok", 200⟩, [forwardCall env body]⟩)) := by
  have hfetch : fetch rt net env request = forward rt net env raw := by
    rw [fetch_value_object rt net env request raw vms hmethod hparse hval]
    simp [hmessages, hstatuses, truthy, at0, getIndex0, optDot, strictEq, hown]
  rw [hfetch]
  refine ⟨forward_of_none rt net env raw, ?_⟩
  intro body hbody
  rw [forward_of_some rt net env raw body hbody]
  constructor
  · intro hnet
    rw [hnet]
  · intro s hnet
    rw [hnet]

/-- Witness of the amended C6, on the fixture with the documented
configuration and a network that is down. -/
theorem empty_messages_classification_witness :
    fetch fixtureRuntime netDown sampleEnv ⟨"POST", [], emptyMessagesText⟩ =
      ⟨Except.ok ⟨"n8n unreachable", 502⟩, [forwardCall sampleEnv emptyMessagesText]⟩ :=
  ((empty_messages_classification fixtureRuntime netDown sampleEnv
    ⟨"POST", [], emptyMessagesText⟩ emptyMessagesPayload [("messages", Json.arr [])]
    "491701234567" rfl rfl rfl rfl rfl rfl).2 emptyMessagesText rfl).1 rfl

/-- C7 (echo drop): a POST request with a parseable body whose value object has
a non-empty `messages` list and no `statuses`, and whose first message's
`from` equals the configured `BUSINESS_PHONE_MSISDN`, is answered 200
"dropped echo" with no outbound call. -/
theorem echo_drop (rt : Runtime) (net : OutboundCall → FetchOutcome) (env : Env)
    (request : Request) (raw : Json) (vms : List (String × Json)) (first : Json)
    (rest : List Json) (own : String)
    (hmethod : request.method = "POST")
    (hparse : rt.jsonParse request.body = some raw)
    (hval : firstValue raw = some (Json.obj vms))
    (hmessages : member "messages" vms = some (Json.arr (first :: rest)))
    (hstatuses : member "statuses" vms = none)
    (hsender : senderOf first = some (Json.str own))
    (hown : env.BUSINESS_PHONE_MSISDN = some own) :
    fetch rt net env request = ⟨Except.ok ⟨"dropped echo", 200⟩, []⟩ := by
  rw [fetch_value_object rt net env request raw vms hmethod hparse hval]
  simp [hmessages, hstatuses, truthy, at0, getIndex0, optDot_from, hsender, hown, strictEq]

/-- Witness of C7: `from` = "491701234567" with own number "491701234567". -/
theorem echo_drop_witness :
    fetch fixtureRuntime netOk sampleEnv ⟨"POST", [], echoText⟩
      = ⟨Except.ok ⟨"dropped echo", 200⟩, []⟩ :=
  echo_drop fixtureRuntime netOk sampleEnv ⟨"POST", [], echoText⟩ echoPayload
    [("messages", Json.arr [textMessage "491701234567"])] (textMessage "491701234567") []
    "491701234567" rfl rfl rfl rfl rfl rfl rfl

/-- Counterexample to C8 as stated. A genuine user message that carries the
number `1e999` is forwarded with `null` in its place, so parsing the outbound
body does not give back the parsed inbound body. A genuine user message with a
field nested deeper than `JSON.stringify` can follow is answered 502 and no
outbound call is made at all. -/
theorem forwarded_body_not_deep_equal :
    (fixtureRuntime.jsonParse overflowText = some overflowPayload ∧
      fetch fixtureRuntime netOk sampleEnv ⟨"POST", [], overflowText⟩ =
        ⟨Except.ok ⟨"ok", 200⟩,
          [⟨some "https://app.n8n.cloud/webhook/wa-in", "POST",
            [("Content-Type", "application/json")], overflowForwardedText⟩]⟩ ∧
      fixtureRuntime.jsonParse overflowForwardedText = some overflowForwardedPayload ∧
      overflowForwardedPayload ≠ overflowPayload) ∧
    (fixtureRuntime.jsonParse deepText = some deepPayload ∧
      fixtureRuntime.jsonStringify deepPayload = none ∧
      fetch fixtureRuntime netOk sampleEnv ⟨"POST", [], deepText⟩ =
        ⟨Except.ok ⟨"n8n unreachable", 502⟩, []⟩) := by
  refine ⟨⟨rfl, rfl, rfl, ?_⟩, rfl, rfl, rfl⟩
  simp [overflowForwardedPayload, overflowPayload, envelope]

/-- C8 as amended (forwarded content): for a genuine inbound message, when
`JSON.stringify(raw)` returns, the handler issues one outbound call, a POST to
the configured `N8N_URL` with the header `Content-Type: application/json` and
with that serialisation of the entire parsed envelope `raw` as body; when
`JSON.stringify(raw)` throws, it issues no call. On a runtime that keeps the
round-trip contract of `JSON.parse` and `JSON.stringify`, and for an envelope
in which every number is finite, parsing the outbound body gives the parsed
inbound body. -/
theorem forwarded_content (rt : Runtime) (net : OutboundCall → FetchOutcome) (env : Env)
    (request : Request) (raw : Json) (vms : List (String × Json)) (first : Json)
    (rest : List Json)
    (hmethod : request.method = "POST")
    (hparse : rt.jsonParse request.body = some raw)
    (hval : firstValue raw = some (Json.obj vms))
    (hmessages : member "messages" vms = some (Json.arr (first :: rest)))
    (hstatuses : member "statuses" vms = none)
    (hsender : senderOf first ≠ env.BUSINESS_PHONE_MSISDN.map Json.str) :
    (∀ body, rt.jsonStringify raw = some body →
      (fetch rt net env request).calls =
        [⟨env.N8N_URL, "POST", [("Content-Type", "application/json")], body⟩]) ∧
    (rt.jsonStringify raw = none → (fetch rt net env request).calls = []) ∧
    (rt.RoundTrips → finiteNumbers raw = true →
      ∀ call ∈ (fetch rt net env request).calls,
        rt.jsonParse call.body = rt.jsonParse request.body) := by
  rw [fetch_genuine rt net env request raw vms first rest hmethod hparse hval hmessages
    hstatuses hsender]
  refine ⟨fun body hbody => forward_calls_of_some rt net env raw body hbody, ?_, ?_⟩
  · intro hnone
    rw [forward_of_none rt net env raw hnone]
  · intro hround hfinite call hcall
    cases hs : rt.jsonStringify raw with
    | none =>
      rw [forward_of_none rt net env raw hs] at hcall
      cases hcall
    | some body =>
      rw [forward_calls_of_some rt net env raw body hs] at hcall
      rw [List.mem_singleton] at hcall
      subst hcall
      rw [hparse]
      exact hround request.body raw body hparse hfinite hs

/-- Witness of the amended C8: the user message from "491709999999" under the
documented configuration; the body of the outbound call is the body received
and parses to the same envelope. -/
theorem forwarded_content_witness :
    (fetch fixtureRuntime netOk sampleEnv ⟨"POST", [], userText⟩).calls =
      [⟨some "https://app.n8n.cloud/webhook/wa-in", "POST",
        [("Content-Type", "application/json")], userText⟩] ∧
    ∀ call ∈ (fetch fixtureRuntime netOk sampleEnv ⟨"POST", [], userText⟩).calls,
      fixtureRuntime.jsonParse call.body = some userPayload :=
  have h := forwarded_content fixtureRuntime netOk sampleEnv ⟨"POST", [], userText⟩
    userPayload [("messages", Json.arr [textMessage "491709999999"])]
    (textMessage "491709999999") [] rfl rfl rfl rfl rfl
    (by simp [senderOf, textMessage, member, sampleEnv])
  ⟨h.1 userText rfl, h.2.2 fixtureRuntime_roundTrips rfl⟩

/-- C9 (destination status is ignored): for a genuine inbound message whose
outbound call completes with any HTTP status `s`, the handler answers 200 "ok";
the answer is the same for every `s`. The outbound call is the one issued after
`JSON.stringify(raw)` returned its body. -/
theorem destination_status_ignored (rt : Runtime) (net : OutboundCall → FetchOutcome)
    (env : Env) (request : Request) (raw : Json) (vms : List (String × Json)) (first : Json)
    (rest : List Json) (body : String) (s : Nat)
    (hmethod : request.method = "POST")
    (hparse : rt.jsonParse request.body = some raw)
    (hval : firstValue raw = some (Json.obj vms))
    (hmessages : member "messages" vms = some (Json.arr (first :: rest)))
    (hstatuses : member "statuses" vms = none)
    (hsender : senderOf first ≠ env.BUSINESS_PHONE_MSISDN.map Json.str)
    (hbody : rt.jsonStringify raw = some body)
    (hnet : net (forwardCall env body) = FetchOutcome.resolved s) :
    (fetch rt net env request).result = Except.ok ⟨"ok", 200⟩ := by
  rw [fetch_genuine rt net env request raw vms first rest hmethod hparse hval hmessages
    hstatuses hsender, forward_of_some rt net env raw body hbody, hnet]

/-- Witness of C9: the destination answers 500. -/
theorem destination_status_ignored_witness :
    (fetch fixtureRuntime (fun _ => FetchOutcome.resolved 500) sampleEnv
      ⟨"POST", [], userText⟩).result = Except.ok ⟨"ok", 200⟩ :=
  destination_status_ignored fixtureRuntime (fun _ => FetchOutcome.resolved 500) sampleEnv
    ⟨"POST", [], userText⟩ userPayload [("messages", Json.arr [textMessage "491709999999"])]
    (textMessage "491709999999") [] userText 500 rfl rfl rfl rfl rfl
    (by simp [senderOf, textMessage, member, sampleEnv]) rfl rfl

/-- C10 (downstream unavailability): for a genuine inbound message whose
outbound call fails to complete, the handler completes normally with 502
"n8n unreachable", and the failed call is the only outbound call it made. The
`catch` is also entered when `JSON.stringify(raw)` throws before the call: the
handler then completes normally with 502 "n8n unreachable" as well, and made
no outbound call. -/
theorem downstream_unavailable (rt : Runtime) (net : OutboundCall → FetchOutcome)
    (env : Env) (request : Request) (raw : Json) (vms : List (String × Json)) (first : Json)
    (rest : List Json)
    (hmethod : request.method = "POST")
    (hparse : rt.jsonParse request.body = some raw)
    (hval : firstValue raw = some (Json.obj vms))
    (hmessages : member "messages" vms = some (Json.arr (first :: rest)))
    (hstatuses : member "statuses" vms = none)
    (hsender : senderOf first ≠ env.BUSINESS_PHONE_MSISDN.map Json.str) :
    (∀ body, rt.jsonStringify raw = some body →
      net (forwardCall env body) = FetchOutcome.rejected →
      fetch rt net env request =
        ⟨Except.ok ⟨"n8n unreachable", 502⟩, [forwardCall env body]⟩) ∧
    (rt.jsonStringify raw = none →
      fetch rt net env request = ⟨Except.ok ⟨"n8n unreachable", 502⟩, []⟩) := by
  rw [fetch_genuine rt net env request raw vms first rest hmethod hparse hval hmessages
    hstatuses hsender]
  refine ⟨?_, forward_of_none rt net env raw⟩
  intro body hbody hnet
  rw [forward_of_some rt net env raw body hbody, hnet]

/-- Witness of C10: the user message with the network down. -/
theorem downstream_unavailable_witness :
    fetch fixtureRuntime netDown sampleEnv ⟨"POST", [], userText⟩ =
      ⟨Except.ok ⟨"n8n unreachable", 502⟩,
        [⟨some "https://app.n8n.cloud/webhook/wa-in", "POST",
          [("Content-Type", "application/json")], userText⟩]⟩ :=
  (downstream_unavailable fixtureRuntime netDown sampleEnv ⟨"POST", [], userText⟩
    userPayload [("messages", Json.arr [textMessage "491709999999"])]
    (textMessage "491709999999") [] rfl rfl rfl rfl rfl
    (by simp [senderOf, textMessage, member, sampleEnv])).1 userText rfl rfl

/-- Counterexample to C11 as stated. The handshake whose challenge is the text
`ok` is answered with body "ok" although no outbound call was issued. A genuine
user message with a field nested deeper than `JSON.stringify` can follow is
answered "n8n unreachable" although no outbound call was issued. So the
response body does not tell whether a call was made, and a genuine message
does not always lead to a call. -/
theorem handshake_ok_without_call :
    (fetch fixtureRuntime netOk sampleEnv (handshakeRequest "deinVerifyToken" "ok") =
        ⟨Except.ok ⟨"ok", 200⟩, []⟩ ∧
      ¬ ((fetch fixtureRuntime netOk sampleEnv
            (handshakeRequest "deinVerifyToken" "ok")).calls ≠ []
        ↔ ∃ r, (fetch fixtureRuntime netOk sampleEnv
              (handshakeRequest "deinVerifyToken" "ok")).result = Except.ok r ∧
            (r.body = "ok" ∨ r.body = "n8n unreachable"))) ∧
    (fixtureRuntime.jsonParse deepText = some deepPayload ∧
      fetch fixtureRuntime netOk sampleEnv ⟨"POST", [], deepText⟩ =
        ⟨Except.ok ⟨"n8n unreachable", 502⟩, []⟩) := by
  have h : fetch fixtureRuntime netOk sampleEnv (handshakeRequest "deinVerifyToken" "ok") =
      ⟨Except.ok ⟨"ok", 200⟩, []⟩ := rfl
  refine ⟨⟨h, ?_⟩, rfl, rfl⟩
  rw [h]
  intro hiff
  exact hiff.2 ⟨⟨"ok", 200⟩, rfl, Or.inl rfl⟩ rfl

/-- C11 as amended (outbound calls happen only for genuine messages): for every
request and configuration the handler issues at most one outbound call; none
for a GET request, none when the body is not valid JSON, none when the answer
is "dropped status" or "dropped echo"; for a genuine inbound message exactly
one, the forwarding call, when `JSON.stringify(raw)` returns, and none when it
throws. For a request that is not a GET: when a call was issued the response
body is "ok" or "n8n unreachable"; a response body "ok" means that a call was
issued; a response body "n8n unreachable" comes with a call exactly when
`JSON.stringify` returned. -/
theorem outbound_calls_only_for_genuine (rt : Runtime) (net : OutboundCall → FetchOutcome)
    (env : Env) (request : Request) :
    (fetch rt net env request).calls.length ≤ 1 ∧
    (request.method = "GET" → (fetch rt net env request).calls = []) ∧
    (rt.jsonParse request.body = none → (fetch rt net env request).calls = []) ∧
    ((fetch rt net env request).result = Except.ok ⟨"dropped status", 200⟩ →
      (fetch rt net env request).calls = []) ∧
    ((fetch rt net env request).result = Except.ok ⟨"dropped echo", 200⟩ →
      (fetch rt net env request).calls = []) ∧
    (∀ (raw : Json) (vms : List (String × Json)) (first : Json) (rest : List Json),
      request.method = "POST" →
      rt.jsonParse request.body = some raw →
      firstValue raw = some (Json.obj vms) →
      member "messages" vms = some (Json.arr (first :: rest)) →
      member "statuses" vms = none →
      senderOf first ≠ env.BUSINESS_PHONE_MSISDN.map Json.str →
      (∀ body, rt.jsonStringify raw = some body →
        (fetch rt net env request).calls = [forwardCall env body]) ∧
      (rt.jsonStringify raw = none → (fetch rt net env request).calls = [])) ∧
    (request.method ≠ "GET" →
      ((fetch rt net env request).calls ≠ [] →
        ∃ r, (fetch rt net env request).result = Except.ok r ∧
          (r.body = "ok" ∨ r.body = "n8n unreachable")) ∧
      (∀ r, (fetch rt net env request).result = Except.ok r → r.body = "ok" →
        (fetch rt net env request).calls ≠ []) ∧
      (∀ r, (fetch rt net env request).result = Except.ok r → r.body = "n8n unreachable" →
        ((fetch rt net env request).calls ≠ [] ↔
          ∃ raw body, rt.jsonParse request.body = some raw ∧
            rt.jsonStringify raw = some body))) := by
  have hgenuine : ∀ (raw : Json) (vms : List (String × Json)) (first : Json)
      (rest : List Json), request.method = "POST" →
      rt.jsonParse request.body = some raw →
      firstValue raw = some (Json.obj vms) →
      member "messages" vms = some (Json.arr (first :: rest)) →
      member "statuses" vms = none →
      senderOf first ≠ env.BUSINESS_PHONE_MSISDN.map Json.str →
      (∀ body, rt.jsonStringify raw = some body →
        (fetch rt net env request).calls = [forwardCall env body]) ∧
      (rt.jsonStringify raw = none → (fetch rt net env request).calls = []) := by
    intro raw vms first rest hm hp hv hms hst hsd
    rw [fetch_genuine rt net env request raw vms first rest hm hp hv hms hst hsd]
    refine ⟨fun body hbody => forward_calls_of_some rt net env raw body hbody, ?_⟩
    intro hnone
    rw [forward_of_none rt net env raw hnone]
  by_cases hget : request.method = "GET"
  · have hcalls : (fetch rt net env request).calls = [] := by
      rcases fetch_get rt net env request hget with h | h <;> rw [h]
    exact ⟨by simp [hcalls], fun _ => hcalls, fun _ => hcalls, fun _ => hcalls,
      fun _ => hcalls, hgenuine, fun hne => absurd hget hne⟩
  · have hdrop : ∀ r : Response, (r = ⟨"Bad JSON", 400⟩ ∨ r = ⟨"dropped status", 200⟩ ∨
        r = ⟨"dropped echo", 200⟩) → fetch rt net env request = ⟨Except.ok r, []⟩ →
        ((fetch rt net env request).calls ≠ [] →
          ∃ r, (fetch rt net env request).result = Except.ok r ∧
            (r.body = "ok" ∨ r.body = "n8n unreachable")) ∧
        (∀ r, (fetch rt net env request).result = Except.ok r → r.body = "ok" →
          (fetch rt net env request).calls ≠ []) ∧
        (∀ r, (fetch rt net env request).result = Except.ok r →
          r.body = "n8n unreachable" →
          ((fetch rt net env request).calls ≠ [] ↔
            ∃ raw body, rt.jsonParse request.body = some raw ∧
              rt.jsonStringify raw = some body)) := by
      intro r hr h
      rw [h]
      refine ⟨fun hc => absurd rfl hc, ?_, ?_⟩
      · intro r2 h2 hbody
        cases h2
        rcases hr with hr | hr | hr <;> rw [hr] at hbody <;> exact absurd hbody (by decide)
      · intro r2 h2 hbody
        cases h2
        rcases hr with hr | hr | hr <;> rw [hr] at hbody <;> exact absurd hbody (by decide)
    rcases fetch_delivery_cases rt net env request hget with ⟨hp, h⟩ | ⟨raw, hp, h | h | h⟩
    · exact ⟨by simp [h], fun _ => by simp [h], fun _ => by simp [h], fun _ => by simp [h],
        fun _ => by simp [h], hgenuine, fun _ => hdrop _ (Or.inl rfl) h⟩
    · exact ⟨by simp [h], fun _ => by simp [h], fun _ => by simp [h], fun _ => by simp [h],
        fun _ => by simp [h], hgenuine, fun _ => hdrop _ (Or.inr (Or.inl rfl)) h⟩
    · exact ⟨by simp [h], fun _ => by simp [h], fun _ => by simp [h], fun _ => by simp [h],
        fun _ => by simp [h], hgenuine, fun _ => hdrop _ (Or.inr (Or.inr rfl)) h⟩
    · rw [h]
      rw [h] at hgenuine
      rcases forward_cases rt net env raw with ⟨hs, hf⟩ | ⟨body, hs, ⟨_, hf⟩ | ⟨_, hf⟩⟩
      · rw [hf]
        refine ⟨by simp, fun _ => rfl, fun _ => rfl, fun _ => rfl, fun _ => rfl,
          by rw [hf] at hgenuine; exact hgenuine, fun _ => ⟨fun hc => absurd rfl hc, ?_, ?_⟩⟩
        · intro r2 h2 hbody
          cases h2
          exact absurd hbody (by decide)
        · intro r2 _ _
          constructor
          · intro hc
            exact absurd rfl hc
          · rintro ⟨raw2, body2, hp2, hs2⟩
            rw [hp] at hp2
            cases hp2
            rw [hs] at hs2
            cases hs2
      · rw [hf]
        refine ⟨by simp, fun hg => absurd hg hget, fun hn => ?_, fun hr => ?_, fun hr => ?_,
          by rw [hf] at hgenuine; exact hgenuine, fun _ => ⟨fun _ => ⟨_, rfl, Or.inr rfl⟩,
            fun _ _ _ => by simp, fun _ _ _ => ⟨fun _ => ⟨raw, body, hp, hs⟩, fun _ => by simp⟩⟩⟩
        · rw [hp] at hn
          cases hn
        · simp at hr
        · simp at hr
      · rw [hf]
        refine ⟨by simp, fun hg => absurd hg hget, fun hn => ?_, fun hr => ?_, fun hr => ?_,
          by rw [hf] at hgenuine; exact hgenuine, fun _ => ⟨fun _ => ⟨_, rfl, Or.inl rfl⟩,
            fun _ _ _ => by simp, fun _ _ _ => ⟨fun _ => ⟨raw, body, hp, hs⟩, fun _ => by simp⟩⟩⟩
        · rw [hp] at hn
          cases hn
        · simp at hr
        · simp at hr

/-- Witness of the amended C11: the user message is forwarded in exactly one
call, and its answer "ok" tells that a call was issued. -/
theorem outbound_calls_only_for_genuine_witness :
    (fetch fixtureRuntime netOk sampleEnv ⟨"POST", [], userText⟩).calls =
      [forwardCall sampleEnv userText] ∧
    (fetch fixtureRuntime netOk sampleEnv ⟨"POST", [], userText⟩).calls ≠ [] :=
  have h := outbound_calls_only_for_genuine fixtureRuntime netOk sampleEnv
    ⟨"POST", [], userText⟩
  ⟨(h.2.2.2.2.2.1 userPayload [("messages", Json.arr [textMessage "491709999999"])]
      (textMessage "491709999999") [] rfl rfl rfl rfl rfl
      (by simp [senderOf, textMessage, member, sampleEnv])).1 userText rfl,
    (h.2.2.2.2.2.2 (by decide)).2.1 ⟨"ok", 200⟩ rfl rfl⟩

/-- C12 (the handler is total over the payload shape): for a delivery request
whose body parses to any JSON value at all, no read of the navigation or of the
classification raises, and the handler returns one of the five answers
(400 "Bad JSON"), (200 "dropped status"), (200 "dropped echo"), (200 "ok"),
(502 "n8n unreachable"). -/
theorem total_over_payload_shape (rt : Runtime) (net : OutboundCall → FetchOutcome)
    (env : Env) (request : Request) (raw : Json)
    (hmethod : request.method ≠ "GET")
    (hparse : rt.jsonParse request.body = some raw) :
    ∃ r, (fetch rt net env request).result = Except.ok r ∧
      (r = ⟨"Bad JSON", 400⟩ ∨ r = ⟨"dropped status", 200⟩ ∨ r = ⟨"dropped echo", 200⟩ ∨
        r = ⟨"ok", 200⟩ ∨ r = ⟨"n8n unreachable", 502⟩) := by
  rcases fetch_delivery_cases rt net env request hmethod with
    ⟨hnone, _⟩ | ⟨raw2, _, h | h | h⟩
  · rw [hparse] at hnone
    exact absurd hnone (by simp)
  · exact ⟨_, by rw [h], Or.inr (Or.inl rfl)⟩
  · exact ⟨_, by rw [h], Or.inr (Or.inr (Or.inl rfl))⟩
  · rcases forward_result rt net env raw2 with hr | hr
    · exact ⟨_, by rw [h, hr], Or.inr (Or.inr (Or.inr (Or.inl rfl)))⟩
    · exact ⟨_, by rw [h, hr], Or.inr (Or.inr (Or.inr (Or.inr rfl)))⟩

/-- Witness of C12: an envelope whose `messages` is the string "hello". -/
theorem total_over_payload_shape_witness :
    ∃ r, (fetch fixtureRuntime netOk sampleEnv ⟨"POST", [], stringMessagesText⟩).result =
        Except.ok r ∧
      (r = ⟨"Bad JSON", 400⟩ ∨ r = ⟨"dropped status", 200⟩ ∨ r = ⟨"dropped echo", 200⟩ ∨
        r = ⟨"ok", 200⟩ ∨ r = ⟨"n8n unreachable", 502⟩) :=
  total_over_payload_shape fixtureRuntime netOk sampleEnv ⟨"POST", [], stringMessagesText⟩
    stringMessagesPayload (by decide) rfl

/-- Counterexample to C13 as stated. The user message handled twice in a row on
a network that completes the first call and fails the second is answered "ok"
and then "n8n unreachable": the second result is not the first. A genuine user
message with a field nested deeper than `JSON.stringify` can follow, handled
twice in a row, issues no outbound call at all. -/
theorem flaky_network_changes_answer :
    (fetchTimes fixtureRuntime sampleEnv ⟨"POST", [], userText⟩ (some "170") 2
        (freshWorld flakyNetwork)).1 =
      [Except.ok ⟨"ok", 200⟩, Except.ok ⟨"n8n unreachable", 502⟩] ∧
    (fetchTimes fixtureRuntime sampleEnv ⟨"POST", [], deepText⟩ (some "591") 2
        (freshWorld (fun _ => netOk))).2.sent = [] :=
  ⟨rfl, rfl⟩

/-- C13 as amended (statelessness, idempotence). The completion of the handler
and the outbound call it issues are a function of the request, the
configuration and the outcome of the outbound call only: two worlds with
different clocks, consoles and earlier calls give the same completion and the
same new calls as soon as the outbound call completes in both or fails in
both. For a forward-eligible request handled `N >= 1` times in a row, each
handling starting in the world the one before left behind: when
`JSON.stringify(raw)` returns, the `N` handlings issue `N` outbound calls, all
equal, and when the outbound call completes each time, or fails each time,
every handling gives the same result, the last being equal to the first; when
`JSON.stringify(raw)` throws, no call is issued and every result is 502
"n8n unreachable". -/
theorem stateless_idempotent (rt : Runtime) (env : Env) (request : Request)
    (contentLength : Option String) :
    (∀ w w2 : World,
      (∀ raw body, rt.jsonParse request.body = some raw → rt.jsonStringify raw = some body →
        (w.network w.sent.length (forwardCall env body) = FetchOutcome.rejected ↔
          w2.network w2.sent.length (forwardCall env body) = FetchOutcome.rejected)) →
      (fetchInWorld rt env request contentLength w).1 =
        (fetchInWorld rt env request contentLength w2).1 ∧
      ∃ calls, (fetchInWorld rt env request contentLength w).2.sent = w.sent ++ calls ∧
        (fetchInWorld rt env request contentLength w2).2.sent = w2.sent ++ calls) ∧
    (∀ (raw : Json) (vms : List (String × Json)) (first : Json) (rest : List Json)
      (w : World) (N : Nat),
      1 ≤ N →
      request.method = "POST" →
      rt.jsonParse request.body = some raw →
      firstValue raw = some (Json.obj vms) →
      member "messages" vms = some (Json.arr (first :: rest)) →
      member "statuses" vms = none →
      senderOf first ≠ env.BUSINESS_PHONE_MSISDN.map Json.str →
      (fetchTimes rt env request contentLength N w).1.length = N ∧
      (∀ body, rt.jsonStringify raw = some body →
        (fetchTimes rt env request contentLength N w).2.sent =
          w.sent ++ List.replicate N (forwardCall env body) ∧
        ((∀ k, k < N →
            (w.network (w.sent.length + k) (forwardCall env body) = FetchOutcome.rejected ↔
              w.network w.sent.length (forwardCall env body) = FetchOutcome.rejected)) →
          (fetchTimes rt env request contentLength N w).1 =
            List.replicate N (fetchInWorld rt env request contentLength w).1 ∧
          (fetchTimes rt env request contentLength N w).1.getLast? =
            (fetchTimes rt env request contentLength N w).1.head?)) ∧
      (rt.jsonStringify raw = none →
        (fetchTimes rt env request contentLength N w).2.sent = w.sent ∧
        (fetchTimes rt env request contentLength N w).1 =
          List.replicate N (Except.ok ⟨"n8n unreachable", 502⟩))) := by
  constructor
  · intro w w2 hsame
    obtain ⟨h1, h2, _⟩ := fetchInWorld_fetch rt env request contentLength w
    obtain ⟨k1, k2, _⟩ := fetchInWorld_fetch rt env request contentLength w2
    have hnet := fetch_congr_net rt (w.network w.sent.length) (w2.network w2.sent.length) env
      request hsame
    refine ⟨by rw [h1, k1, hnet], (fetch rt (w.network w.sent.length) env request).calls, h2, ?_⟩
    rw [k2, hnet]
  · intro raw vms first rest w N hN hm hp hv hms hst hsd
    have hfetch : ∀ net, fetch rt net env request = forward rt net env raw :=
      fun net => fetch_genuine rt net env request raw vms first rest hm hp hv hms hst hsd
    refine ⟨fetchTimes_length rt env request contentLength N w, ?_, ?_⟩
    · intro body hbody
      obtain ⟨t1, _, t3⟩ :=
        fetchTimes_forward rt env request contentLength raw body hfetch hbody N w
      refine ⟨t1, ?_⟩
      intro hsame
      have hall : (fetchTimes rt env request contentLength N w).1 =
          List.replicate N (fetchInWorld rt env request contentLength w).1 := by
        rw [t3, (fetchInWorld_fetch rt env request contentLength w).1, hfetch]
        apply List.ext_getElem
        · simp
        · intro k h1 h2
          have hk : k < N := by simpa using h1
          simp only [List.getElem_map, List.getElem_range, List.getElem_replicate]
          rw [forward_congr_net rt (w.network (w.sent.length + k)) (w.network w.sent.length)
            env raw]
          intro body2 hbody2
          rw [hbody] at hbody2
          cases hbody2
          exact hsame k hk
      refine ⟨hall, ?_⟩
      obtain ⟨n, rfl⟩ : ∃ n, N = n + 1 := ⟨N - 1, by omega⟩
      rw [hall, List.getLast?_replicate, List.head?_replicate]
    · intro hnone
      exact fetchTimes_forward_none rt env request contentLength raw hfetch hnone N w

/-- Witness of the amended C13: the user message handled three times while the
destination answers 200, then 404, then 500, starting in a world where two
lines were logged and one call was made before. -/
theorem stateless_idempotent_witness :
    (fetchTimes fixtureRuntime sampleEnv ⟨"POST", [], userText⟩ (some "170") 3
        ⟨fun k => 1000 * k, [(0, LogMessage.dropStatus), (1000, LogMessage.forwardError)],
          fun k _ => FetchOutcome.resolved (if k = 1 then 200 else if k = 2 then 404 else 500),
          [forwardCall sampleEnv echoText]⟩).2.sent =
      [forwardCall sampleEnv echoText, forwardCall sampleEnv userText,
        forwardCall sampleEnv userText, forwardCall sampleEnv userText] ∧
    (fetchTimes fixtureRuntime sampleEnv ⟨"POST", [], userText⟩ (some "170") 3
        ⟨fun k => 1000 * k, [(0, LogMessage.dropStatus), (1000, LogMessage.forwardError)],
          fun k _ => FetchOutcome.resolved (if k = 1 then 200 else if k = 2 then 404 else 500),
          [forwardCall sampleEnv echoText]⟩).1 =
      [Except.ok ⟨"ok", 200⟩, Except.ok ⟨"ok", 200⟩, Except.ok ⟨"ok", 200⟩] :=
  have h := ((stateless_idempotent fixtureRuntime sampleEnv ⟨"POST", [], userText⟩
    (some "170")).2 userPayload [("messages", Json.arr [textMessage "491709999999"])]
    (textMessage "491709999999") []
    ⟨fun k => 1000 * k, [(0, LogMessage.dropStatus), (1000, LogMessage.forwardError)],
      fun k _ => FetchOutcome.resolved (if k = 1 then 200 else if k = 2 then 404 else 500),
      [forwardCall sampleEnv echoText]⟩
    3 (by decide) rfl rfl rfl rfl rfl
    (by simp [senderOf, textMessage, member, sampleEnv])).2.1 userText rfl
  ⟨h.1, (h.2 (fun _ _ => by simp)).1⟩

/-- Counterexample to C14 as stated. The envelopes with value object
`{"messages":false}` and `{"messages":[]}` agree on `statuses` (absent in
both), on `messages[0].from` (absent in both) and on `messages` being present,
yet the first is dropped as a status event and the second is forwarded. And an
envelope whose first message is from another sender and whose second is from
the own number is not forwarded when a field of it is nested deeper than
`JSON.stringify` can follow: the answer is 502 and no call is made. -/
theorem presence_does_not_classify :
    (fixtureRuntime.jsonParse falseMessagesText = some falseMessagesPayload ∧
      fixtureRuntime.jsonParse emptyMessagesText = some emptyMessagesPayload ∧
      optDot (valueOf falseMessagesPayload) "statuses" =
        optDot (valueOf emptyMessagesPayload) "statuses" ∧
      optDot (optAt0 (optDot (valueOf falseMessagesPayload) "messages")) "from" =
        optDot (optAt0 (optDot (valueOf emptyMessagesPayload) "messages")) "from" ∧
      (optDot (valueOf falseMessagesPayload) "messages").isSome = true ∧
      (optDot (valueOf emptyMessagesPayload) "messages").isSome = true ∧
      classificationOf
          (fetch fixtureRuntime netOk sampleEnv ⟨"POST", [], falseMessagesText⟩) =
        some Classification.droppedStatus ∧
      classificationOf
          (fetch fixtureRuntime netOk sampleEnv ⟨"POST", [], emptyMessagesText⟩) =
        some Classification.forward) ∧
    (fixtureRuntime.jsonParse deepText = some deepPayload ∧
      optDot (optAt0 (optDot (valueOf deepPayload) "messages")) "from" =
        some (Json.str "491709999999") ∧
      fetch fixtureRuntime netOk sampleEnv ⟨"POST", [], deepText⟩ =
        ⟨Except.ok ⟨"n8n unreachable", 502⟩, []⟩) :=
  ⟨⟨rfl, rfl, rfl, rfl, rfl, rfl, rfl, rfl⟩, rfl, rfl, rfl⟩

/-- C14 as amended (classification looks at one place only): two parseable
envelopes that agree on `entry[0].changes[0].value.statuses`, on
`entry[0].changes[0].value.messages[0].from` and on whether
`entry[0].changes[0].value.messages` is truthy get the same classification
under the same configuration, whatever the other entries, changes and messages
contain and whatever the network does. Consequences: an envelope whose first
message is from another sender is classified as forward whatever its second
message is, and the call issued when `JSON.stringify(raw)` returns carries the
whole envelope; an envelope whose first message is from the own number is
dropped as echo, whatever its second message is; an envelope whose first entry
is a status event is dropped as status, whatever its second entry carries. -/
theorem classification_one_place (rt : Runtime) (env : Env) :
    (∀ (net1 net2 : OutboundCall → FetchOutcome) (r1 r2 : Request) (raw1 raw2 : Json),
      r1.method = "POST" → r2.method = "POST" →
      rt.jsonParse r1.body = some raw1 → rt.jsonParse r2.body = some raw2 →
      optDot (valueOf raw1) "statuses" = optDot (valueOf raw2) "statuses" →
      optDot (optAt0 (optDot (valueOf raw1) "messages")) "from" =
        optDot (optAt0 (optDot (valueOf raw2) "messages")) "from" →
      truthy (optDot (valueOf raw1) "messages") = truthy (optDot (valueOf raw2) "messages") →
      classificationOf (fetch rt net1 env r1) = classificationOf (fetch rt net2 env r2)) ∧
    (∀ (net : OutboundCall → FetchOutcome) (request : Request) (raw : Json)
      (vms : List (String × Json)) (first second : Json) (rest : List Json),
      request.method = "POST" → rt.jsonParse request.body = some raw →
      firstValue raw = some (Json.obj vms) →
      member "messages" vms = some (Json.arr (first :: second :: rest)) →
      member "statuses" vms = none →
      senderOf first ≠ env.BUSINESS_PHONE_MSISDN.map Json.str →
      classificationOf (fetch rt net env request) = some Classification.forward ∧
        ∀ body, rt.jsonStringify raw = some body →
          (fetch rt net env request).calls = [forwardCall env body]) ∧
    (∀ (net : OutboundCall → FetchOutcome) (request : Request) (raw : Json)
      (vms : List (String × Json)) (first second : Json) (rest : List Json) (own : String),
      request.method = "POST" → rt.jsonParse request.body = some raw →
      firstValue raw = some (Json.obj vms) →
      member "messages" vms = some (Json.arr (first :: second :: rest)) →
      member "statuses" vms = none →
      senderOf first = some (Json.str own) → env.BUSINESS_PHONE_MSISDN = some own →
      fetch rt net env request = ⟨Except.ok ⟨"dropped echo", 200⟩, []⟩) ∧
    (∀ (net : OutboundCall → FetchOutcome) (request : Request)
      (rms ems cms vms : List (String × Json)) (second : Json) (es cs ss : List Json),
      request.method = "POST" → rt.jsonParse request.body = some (Json.obj rms) →
      member "entry" rms = some (Json.arr (Json.obj ems :: second :: es)) →
      member "changes" ems = some (Json.arr (Json.obj cms :: cs)) →
      member "value" cms = some (Json.obj vms) →
      member "statuses" vms = some (Json.arr ss) →
      fetch rt net env request = ⟨Except.ok ⟨"dropped status", 200⟩, []⟩) := by
  refine ⟨?_, ?_, ?_, ?_⟩
  · intro net1 net2 r1 r2 raw1 raw2 hm1 hm2 hp1 hp2 hstatuses hfrom hmessages
    have hg1 : r1.method ≠ "GET" := by rw [hm1]; decide
    have hg2 : r2.method ≠ "GET" := by rw [hm2]; decide
    rw [fetch_delivery rt net1 env r1 raw1 hg1 hp1, fetch_delivery rt net2 env r2 raw2 hg2 hp2,
      hstatuses, hfrom, hmessages]
    split
    · rfl
    · split
      · rfl
      · rw [classificationOf_forward, classificationOf_forward]
  · intro net request raw vms first second rest hm hp hv hms hst hsd
    rw [fetch_genuine rt net env request raw vms first (second :: rest) hm hp hv hms hst hsd]
    exact ⟨classificationOf_forward rt net env raw,
      fun body hbody => forward_calls_of_some rt net env raw body hbody⟩
  · intro net request raw vms first second rest own hm hp hv hms hst hsd hown
    rw [fetch_value_object rt net env request raw vms hm hp hv]
    simp [hms, hst, truthy, at0, getIndex0, optDot_from, hsd, hown, strictEq]
  · intro net request rms ems cms vms second es cs ss hm hp hentry hchanges hvalue hstatuses
    have hv : firstValue (Json.obj rms) = some (Json.obj vms) := by
      simp [firstValue, hentry, hchanges, hvalue]
    rw [fetch_value_object rt net env request (Json.obj rms) vms hm hp hv]
    simp [hstatuses, truthy]

/-- Witness of the amended C14: the user message alone and the user message
followed by a message from the own number get the same classification, on a
network that is up for the one and down for the other. -/
theorem classification_one_place_witness :
    classificationOf (fetch fixtureRuntime netOk sampleEnv ⟨"POST", [], userText⟩) =
      classificationOf
        (fetch fixtureRuntime netDown sampleEnv ⟨"POST", [], userThenEchoText⟩) ∧
    (classificationOf
        (fetch fixtureRuntime netDown sampleEnv ⟨"POST", [], userThenEchoText⟩) =
        some Classification.forward ∧
      (fetch fixtureRuntime netDown sampleEnv ⟨"POST", [], userThenEchoText⟩).calls =
        [forwardCall sampleEnv userThenEchoText]) :=
  have h := classification_one_place fixtureRuntime sampleEnv
  have h2 := h.2.1 netDown ⟨"POST", [], userThenEchoText⟩ userThenEchoPayload
    [("messages", Json.arr [textMessage "491709999999", textMessage "491701234567"])]
    (textMessage "491709999999") (textMessage "491701234567") [] rfl rfl rfl rfl rfl
    (by simp [senderOf, textMessage, member, sampleEnv])
  ⟨h.1 netOk netDown ⟨"POST", [], userText⟩ ⟨"POST", [], userThenEchoText⟩ userPayload
      userThenEchoPayload rfl rfl rfl rfl rfl rfl rfl,
    h2.1, h2.2 userThenEchoText rfl⟩

/-- C15 (every method other than GET takes the delivery path): a request whose
method is not exactly "GET" is handled exactly as a POST with the same body,
whatever its query parameters are: 400 "Bad JSON" on an unparseable body,
otherwise classification and possibly forwarding; its answer is one of the
five delivery answers, never 403 "Forbidden" and never computed from
`hub.challenge`. Conversely the answer to a GET request does not depend on its
body or on the JSON parser, and its status is 200 or 403, never 400. -/
theorem non_get_is_delivery (rt : Runtime) (net : OutboundCall → FetchOutcome) (env : Env)
    (request : Request) (hmethod : request.method ≠ "GET") :
    (∀ params : List (String × String),
      fetch rt net env request = fetch rt net env ⟨"POST", params, request.body⟩) ∧
    (rt.jsonParse request.body = none →
      fetch rt net env request = ⟨Except.ok ⟨"Bad JSON", 400⟩, []⟩) ∧
    (∃ r, (fetch rt net env request).result = Except.ok r ∧
      (r = ⟨"Bad JSON", 400⟩ ∨ r = ⟨"dropped status", 200⟩ ∨ r = ⟨"dropped echo", 200⟩ ∨
        r = ⟨"ok", 200⟩ ∨ r = ⟨"n8n unreachable", 502⟩) ∧ r.status ≠ 403) ∧
    (∀ (rt2 : Runtime) (net2 : OutboundCall → FetchOutcome) (params : List (String × String))
      (body body2 : String),
      fetch rt net env ⟨"GET", params, body⟩ = fetch rt2 net2 env ⟨"GET", params, body2⟩ ∧
      ∃ r, (fetch rt net env ⟨"GET", params, body⟩).result = Except.ok r ∧
        (r.status = 200 ∨ r.status = 403) ∧ r.status ≠ 400) := by
  refine ⟨?_, ?_, ?_, ?_⟩
  · intro params
    cases hparse : rt.jsonParse request.body with
    | none => simp [fetch, hmethod, hparse]
    | some raw =>
      rw [fetch_delivery rt net env request raw hmethod hparse,
        fetch_delivery rt net env ⟨"POST", params, request.body⟩ raw
          (by show "POST" ≠ "GET"; decide) hparse]
  · intro hparse
    simp [fetch, hmethod, hparse]
  · rcases fetch_delivery_cases rt net env request hmethod with
      ⟨_, h⟩ | ⟨raw, _, h | h | h⟩
    · exact ⟨_, by rw [h], Or.inl rfl, by decide⟩
    · exact ⟨_, by rw [h], Or.inr (Or.inl rfl), by decide⟩
    · exact ⟨_, by rw [h], Or.inr (Or.inr (Or.inl rfl)), by decide⟩
    · rcases forward_result rt net env raw with hr | hr
      · exact ⟨_, by rw [h, hr], Or.inr (Or.inr (Or.inr (Or.inl rfl))), by decide⟩
      · exact ⟨_, by rw [h, hr], Or.inr (Or.inr (Or.inr (Or.inr rfl))), by decide⟩
  · intro rt2 net2 params body body2
    refine ⟨by simp [fetch], ?_⟩
    rcases fetch_get rt net env ⟨"GET", params, body⟩ rfl with h | h
    · exact ⟨_, by rw [h], Or.inl rfl, by show 200 ≠ 400; decide⟩
    · exact ⟨_, by rw [h], Or.inr rfl, by decide⟩

/-- Witness of C15: a PUT that carries the user message and handshake
parameters in its query is answered as the POST of the same body. -/
theorem non_get_is_delivery_witness :
    fetch fixtureRuntime netOk sampleEnv
        ⟨"PUT", [("hub.verify_token", "deinVerifyToken"), ("hub.challenge", "1158201444")],
          userText⟩ =
      fetch fixtureRuntime netOk sampleEnv ⟨"POST", [], userText⟩ :=
  (non_get_is_delivery fixtureRuntime netOk sampleEnv
    ⟨"PUT", [("hub.verify_token", "deinVerifyToken"), ("hub.challenge", "1158201444")],
      userText⟩ (by decide)).1 []

end WaWorker
